import Mathlib

/-!
# 802.11n Block-Ack receive reordering (wlan_sd8786 / mlan)

The header `mlan/mlan_11n_rxreorder.h` declares the constants of the 12-bit
sequence space and of the Block-Ack parameter set, and the entry points of the
reorder engine (`mlan_11n_rxreorder_pkt`, `mlan_11n_delete_bastream_tbl`,
`wlan_11n_ba_stream_timeout`, `wlan_cmd_11n_addba_rspgen`, ...).  The bodies of
those entry points live in `mlan_11n_rxreorder.c`, which is not among the
sources; the engine is therefore modelled from the design specification, and
every such definition says so in its doc comment.  The constants are embedded
from the header.
-/

namespace RxReorder

/-! ## Constants of `mlan_11n_rxreorder.h` -/

/-- Rx packet type for BAR: `#define PKT_TYPE_BAR 0xE7`. -/
def PKT_TYPE_BAR : Nat := 0xE7

/-- Size of the sequence space: `#define MAX_TID_VALUE (2 << 11)`. -/
def MAX_TID_VALUE : Nat := 2 <<< 11

/-- Half of the sequence space: `#define TWOPOW11 (2 << 10)`. -/
def TWOPOW11 : Nat := 2 <<< 10

/-- Tid mask of the BlockAckParamSet: `#define BLOCKACKPARAM_TID_MASK 0x3C`. -/
def BLOCKACKPARAM_TID_MASK : Nat := 0x3C

/-- Tid position in the BlockAckParamSet: `#define BLOCKACKPARAM_TID_POS 2`. -/
def BLOCKACKPARAM_TID_POS : Nat := 2

/-- WinSize mask of the BlockAckParamSet:
`#define BLOCKACKPARAM_WINSIZE_MASK 0xffc0`. -/
def BLOCKACKPARAM_WINSIZE_MASK : Nat := 0xffc0

/-- A-MSDU support mask of the BlockAckParamSet:
`#define BLOCKACKPARAM_AMSDU_SUPP_MASK 0x1`. -/
def BLOCKACKPARAM_AMSDU_SUPP_MASK : Nat := 0x1

/-- WinSize position in the BlockAckParamSet:
`#define BLOCKACKPARAM_WINSIZE_POS 6`. -/
def BLOCKACKPARAM_WINSIZE_POS : Nat := 6

/-- Position of the TID in the DelBA parameter set: `#define DELBA_TID_POS 12`. -/
def DELBA_TID_POS : Nat := 12

/-- Position of the initiator bit in the DelBA parameter set:
`#define DELBA_INITIATOR_POS 11`. -/
def DELBA_INITIATOR_POS : Nat := 11

/-- Reason code, peer does not want the mechanism:
`#define REASON_CODE_STA_DONT_WANT 37`. -/
def REASON_CODE_STA_DONT_WANT : Nat := 37

/-- Immediate block ack policy bit: `#define IMMEDIATE_BLOCK_ACK 0x2`. -/
def IMMEDIATE_BLOCK_ACK : Nat := 0x2

/-! ## Sequence arithmetic (design §4.1) -/

/-- Modelled from the spec: the sequence-arithmetic function `distance` of the
reorder engine, whose C body (`mlan_11n_rxreorder.c`) is not among the sources.
`distance a b` is the modular forward distance from `b` to `a` in the
`MAX_TID_VALUE` space, normalised with the half-space rule: residues below
`TWOPOW11` are kept, the others are taken negative. -/
def distance (a b : Nat) : Int :=
  let d := (a % MAX_TID_VALUE + MAX_TID_VALUE - b % MAX_TID_VALUE) % MAX_TID_VALUE
  if d < TWOPOW11 then (d : Int) else (d : Int) - (MAX_TID_VALUE : Int)

/-- Modelled from the spec: `is_in_window(seq, start, size)`, true iff
`0 ≤ distance(seq, start) < size`; the C body is not among the sources. -/
def is_in_window (seq start size : Nat) : Bool :=
  decide (0 ≤ distance seq start ∧ distance seq start < (size : Int))

/-! ## Reorder window (design §3, §4.2) -/

/-- Modelled from the spec: the Reorder Window record of design §3; the C
record behind it is not among the sources.  Slot `k` of `slots` holds the frame
whose sequence number is `start_sequence + k` modulo the space. -/
structure ReorderWindow (α : Type) where
  start_sequence : Nat
  window_size : Nat
  slots : List (Option α)
  full_count : Nat
deriving DecidableEq, Repr

/-- Modelled from the spec: the result of `insert` (design §4.2); a delivery
enumerates every delivered sequence number with its frame, in order. -/
inductive InsertResult (α : Type) where
  | Delivered (frames : List (Nat × α))
  | Buffered
  | Duplicate
  | OutOfWindow
deriving DecidableEq, Repr

/-- Number of occupied slots. -/
def occupied {α : Type} : List (Option α) → Nat
  | [] => 0
  | none :: rest => occupied rest
  | some _ :: rest => occupied rest + 1

/-- Modelled from the spec: a freshly created window (design §3): `window_size`
empty slots, left edge `start`. -/
def create {α : Type} (size start : Nat) : ReorderWindow α :=
  { start_sequence := start, window_size := size,
    slots := List.replicate size none, full_count := 0 }

/-- The frames of the maximal run of occupied slots at the head of a slot
list ("until a gap or empty window is hit"). -/
def contiguous_run {α : Type} : List (Option α) → List α
  | some f :: rest => f :: contiguous_run rest
  | _ => []

/-- Attach consecutive sequence numbers (modulo the space) to a run of frames,
the first one getting `s`. -/
def label_from {α : Type} : Nat → List α → List (Nat × α)
  | _, [] => []
  | s, f :: fs => (s % MAX_TID_VALUE, f) :: label_from (s + 1) fs

/-- Modelled from the spec: `insert(seq, frame)` of design §4.2, the contract of
`mlan_11n_rxreorder_pkt` for a data frame (its C body is not among the
sources).
* `seq == start_sequence`: the frame is delivered, then the window slides
  through the contiguously buffered subsequent slots, delivering each, until a
  gap or the end of the window;
* `seq` ahead of `start_sequence` and inside the window: stored if its slot is
  empty (`Buffered`), else `Duplicate`;
* `seq` behind `start_sequence`: `Duplicate`; beyond the far edge:
  `OutOfWindow`; the frame is dropped and the state is not touched. -/
def insert {α : Type} (w : ReorderWindow α) (seq : Nat) (frame : α) :
    ReorderWindow α × InsertResult α :=
  if seq = w.start_sequence then
    let run := contiguous_run (w.slots.drop 1)
    let n := run.length + 1
    let slots2 := w.slots.drop n ++ List.replicate n none
    ({ w with start_sequence := (w.start_sequence + n) % MAX_TID_VALUE,
              slots := slots2, full_count := occupied slots2 },
     InsertResult.Delivered ((seq, frame) :: label_from (w.start_sequence + 1) run))
  else if distance seq w.start_sequence < 0 then (w, InsertResult.Duplicate)
  else if distance seq w.start_sequence < (w.window_size : Int) then
    match w.slots[(distance seq w.start_sequence).toNat]? with
    | some none =>
      ({ w with slots := w.slots.set (distance seq w.start_sequence).toNat (some frame),
                full_count := w.full_count + 1 }, InsertResult.Buffered)
    | _ => (w, InsertResult.Duplicate)
  else (w, InsertResult.OutOfWindow)

/-- The frames a forced advance delivers: the buffered frames whose sequence
number is less than `target` (negative `distance` to it), in slot order; `s` is
the sequence number of the first slot of the list. -/
def stale_frames {α : Type} (target : Nat) : Nat → List (Option α) → List (Nat × α)
  | _, [] => []
  | s, none :: rest => stale_frames target (s + 1) rest
  | s, some f :: rest =>
    if distance s target < 0 then (s % MAX_TID_VALUE, f) :: stale_frames target (s + 1) rest
    else stale_frames target (s + 1) rest

/-- The slot of the old window that holds sequence number `target + j`, when
there is one: the new relative position `j` of a frame that stays buffered. -/
def shifted_slot {α : Type} (w : ReorderWindow α) (target j : Nat) : Option α :=
  let k := (target % MAX_TID_VALUE + j + MAX_TID_VALUE - w.start_sequence % MAX_TID_VALUE)
            % MAX_TID_VALUE
  if k < w.window_size then (w.slots[k]?).join else none

/-- Modelled from the spec: `force_advance(target_seq)` of design §4.2, the
BAR / timeout flush (its C body is not among the sources): `start_sequence`
becomes `target_seq`, the buffered frames with sequence numbers less than
`target_seq` are delivered in increasing order, and the remaining buffered
frames move to their new relative slot positions. -/
def force_advance {α : Type} (w : ReorderWindow α) (target : Nat) :
    ReorderWindow α × List (Nat × α) :=
  let slots2 := (List.range w.window_size).map (shifted_slot w target)
  ({ w with start_sequence := target, slots := slots2, full_count := occupied slots2 },
   stale_frames target w.start_sequence w.slots)

/-- The buffered frames with their sequence numbers, in slot order; `s` is the
sequence number of the first slot of the list. -/
def buffered_frames {α : Type} : Nat → List (Option α) → List (Nat × α)
  | _, [] => []
  | s, none :: rest => buffered_frames (s + 1) rest
  | s, some f :: rest => (s % MAX_TID_VALUE, f) :: buffered_frames (s + 1) rest

/-- Modelled from the spec: `flush_all()` of design §4.2 (the window flush of
`mlan_11n_delete_bastream_tbl` / `wlan_11n_cleanup_reorder_tbl`, whose C bodies
are not among the sources): every buffered frame is delivered in increasing
sequence order and the window is emptied. -/
def flush_all {α : Type} (w : ReorderWindow α) : ReorderWindow α × List (Nat × α) :=
  ({ w with slots := w.slots.map (fun _ => none), full_count := 0 },
   buffered_frames w.start_sequence w.slots)

/-- The sequence numbers a result delivers. -/
def delivered_seqs {α : Type} : InsertResult α → List Nat
  | InsertResult.Delivered frames => frames.map Prod.fst
  | _ => []

/-- Run a list of inserts on one window, collecting the result of each. -/
def insert_all {α : Type} : ReorderWindow α → List (Nat × α) →
    ReorderWindow α × List (InsertResult α)
  | w, [] => (w, [])
  | w, (seq, frame) :: rest =>
    let r := insert w seq frame
    let rs := insert_all r.1 rest
    (rs.1, r.2 :: rs.2)

/-- The concatenation of all sequence numbers delivered by a list of inserts. -/
def delivered_by {α : Type} (w : ReorderWindow α) (ins : List (Nat × α)) : List Nat :=
  ((insert_all w ins).2.map delivered_seqs).flatten

/-- A window is well formed when its size is one of 1..64, it has exactly
`window_size` slots, its left edge is a 12-bit sequence number and
`full_count` counts the occupied slots (design §3). -/
def WellFormed {α : Type} (w : ReorderWindow α) : Prop :=
  1 ≤ w.window_size ∧ w.window_size ≤ 64 ∧ w.slots.length = w.window_size ∧
  w.start_sequence < MAX_TID_VALUE ∧ w.full_count = occupied w.slots

instance {α : Type} (w : ReorderWindow α) : Decidable (WellFormed w) := by
  unfold WellFormed
  infer_instance

/-- The window states the engine can reach: a fresh window of a negotiated size,
then any inserts, forced advances and flushes. -/
inductive Reachable {α : Type} : ReorderWindow α → Prop where
  | fresh (size start : Nat) (hs : 1 ≤ size ∧ size ≤ 64) (hst : start < MAX_TID_VALUE) :
      Reachable (create size start)
  | step (w : ReorderWindow α) (seq : Nat) (frame : α) :
      Reachable w → Reachable (insert w seq frame).1
  | advance (w : ReorderWindow α) (target : Nat) (ht : target < MAX_TID_VALUE) :
      Reachable w → Reachable (force_advance w target).1
  | flush (w : ReorderWindow α) : Reachable w → Reachable (flush_all w).1

/-! ## Session table and lifecycle (design §3, §4.3, §4.4) -/

/-- Modelled from the spec: a Block-Ack session (design §3), the part of it the
reorder engine needs: the traffic identifier, the window and the A-MSDU flag
(the C structures are not among the sources). -/
structure Session (α : Type) where
  tid : Nat
  window : ReorderWindow α
  amsdu_supported : Bool
deriving DecidableEq, Repr

/-- Modelled from the spec: the Session Table (design §3), a mapping from
(peer address, tid) to the session, kept as an association list. -/
abbrev SessionTable (α : Type) := List ((Nat × Nat) × Session α)

/-- Modelled from the spec: `lookup(peer, tid)` of design §4.3. -/
def lookup {α : Type} : SessionTable α → Nat → Nat → Option (Session α)
  | [], _, _ => none
  | (key, s) :: rest, peer, tid => if key = (peer, tid) then some s else lookup rest peer tid

/-- Modelled from the spec: `remove(peer, tid)` of design §4.3, "used by DELBA,
timeout, and bulk cleanup; removal always flushes the window before
discarding" (the window part of `mlan_11n_delete_bastream_tbl`, whose C body is
not among the sources).  Returns the table without the session and the frames
the flush delivered.  The flush here is `flush_all`; the flush a timeout makes
is the forced advance of `session_timeout`. -/
def remove {α : Type} (tbl : SessionTable α) (peer tid : Nat) :
    SessionTable α × List (Nat × α) :=
  match lookup tbl peer tid with
  | none => (tbl, [])
  | some s => (tbl.filter (fun e => decide (e.1 ≠ (peer, tid))), (flush_all s.window).2)

/-- Modelled from the spec: `create_or_replace(peer, tid, params)` of design
§4.3: a session that exists for the key is torn down (its window flushed)
before the new one, with a fresh window, replaces it. -/
def create_or_replace {α : Type} (tbl : SessionTable α) (peer tid size start : Nat)
    (amsdu : Bool) : SessionTable α × List (Nat × α) :=
  (((peer, tid), { tid := tid, window := create size start, amsdu_supported := amsdu }) ::
      (remove tbl peer tid).1,
   (remove tbl peer tid).2)

/-- Modelled from the spec: the boundary of the forced advance a timeout makes.
The timer exists "to force-flush the window if the missing frame never arrives"
(design §3): the frame awaited at the left edge is given up, and the boundary
is the sequence number just past the frames that contiguously follow it
(design §8: what "does not contiguously follow from start in the
forced-advance boundary" is discarded). -/
def timeout_target {α : Type} (w : ReorderWindow α) : Nat :=
  (w.start_sequence + 1 + (contiguous_run (w.slots.drop 1)).length) % MAX_TID_VALUE

/-- The WinSize field of a BlockAckParamSet, read with the header's mask and
position: `(p & BLOCKACKPARAM_WINSIZE_MASK) >> BLOCKACKPARAM_WINSIZE_POS`. -/
def blockack_winsize (p : Nat) : Nat :=
  (p &&& BLOCKACKPARAM_WINSIZE_MASK) >>> BLOCKACKPARAM_WINSIZE_POS

/-- The TID field of a BlockAckParamSet, read with the header's mask and
position: `(p & BLOCKACKPARAM_TID_MASK) >> BLOCKACKPARAM_TID_POS`. -/
def blockack_tid (p : Nat) : Nat :=
  (p &&& BLOCKACKPARAM_TID_MASK) >>> BLOCKACKPARAM_TID_POS

/-- The A-MSDU bit of a BlockAckParamSet: `p & BLOCKACKPARAM_AMSDU_SUPP_MASK`. -/
def blockack_amsdu (p : Nat) : Nat :=
  p &&& BLOCKACKPARAM_AMSDU_SUPP_MASK

/-- Modelled from the spec: the outcome of an ADDBA negotiation (design §6, §7):
accepted with the negotiated window size, or rejected as `InvalidWindowSize`. -/
inductive AddbaDecision where
  | Accepted (window_size : Nat)
  | InvalidWindowSize
deriving DecidableEq, Repr

/-- Modelled from the spec: `on_addba_request(peer, tid, requested_window_size,
amsdu_supported)` of design §6 with the error `InvalidWindowSize` of design §7:
a requested size outside [1,64] is rejected and no session is created;
otherwise the session is created (or replaced) with a fresh window of that
size whose left edge is the starting sequence number `ssn`. -/
def on_addba_request {α : Type} (tbl : SessionTable α) (peer tid requested_window_size : Nat)
    (amsdu : Bool) (ssn : Nat) : SessionTable α × List (Nat × α) × AddbaDecision :=
  if 1 ≤ requested_window_size ∧ requested_window_size ≤ 64 then
    ((create_or_replace tbl peer tid requested_window_size ssn amsdu).1,
     (create_or_replace tbl peer tid requested_window_size ssn amsdu).2,
     AddbaDecision.Accepted requested_window_size)
  else (tbl, [], AddbaDecision.InvalidWindowSize)

/-- Modelled from the spec: the boundary of the ADDBA exchange
(`wlan_cmd_11n_addba_rspgen`, only declared in the header): the bit-packed
BlockAckParamSet is decoded once with the header's masks and handed to
`on_addba_request`. -/
def addba_from_param_set {α : Type} (tbl : SessionTable α) (peer param_set ssn : Nat) :
    SessionTable α × List (Nat × α) × AddbaDecision :=
  on_addba_request tbl peer (blockack_tid param_set) (blockack_winsize param_set)
    (decide (blockack_amsdu param_set ≠ 0)) ssn

/-! ## Block-Ack and DelBA parameter sets (`mlan_11n_rxreorder.h`) -/

/-- A BlockAckParamSet word assembled from its fields the way the header lays
them out: A-MSDU bit, policy bit, TID at `BLOCKACKPARAM_TID_POS`, WinSize at
`BLOCKACKPARAM_WINSIZE_POS`:
`amsdu | policy | (tid << BLOCKACKPARAM_TID_POS) | (winsize << BLOCKACKPARAM_WINSIZE_POS)`. -/
def blockack_param_set (amsdu policy tid winsize : Nat) : Nat :=
  amsdu ||| policy ||| (tid <<< BLOCKACKPARAM_TID_POS) |||
    (winsize <<< BLOCKACKPARAM_WINSIZE_POS)

/-- Set the initiator bit of a 16-bit DelBA parameter set:
`#define DELBA_INITIATOR(paramset) (paramset = (paramset | (1 << 11)))`; the
result is stored back into the `t_u16` word. -/
def DELBA_INITIATOR (paramset : Nat) : Nat :=
  (paramset ||| (1 <<< 11)) % 2 ^ 16

/-- Reset the initiator bit of a 16-bit DelBA parameter set:
`#define DELBA_RECIPIENT(paramset) (paramset = (paramset & ~(1 << 11)))`;
`~(1 << 11)` is the 32-bit complement `0xFFFFFFFF ^ (1 << 11)` and the result is
stored back into the `t_u16` word. -/
def DELBA_RECIPIENT (paramset : Nat) : Nat :=
  (paramset &&& (0xFFFFFFFF ^^^ (1 <<< 11))) % 2 ^ 16

/-! ## Concrete states used to exercise the theorems -/

/-- A window of size 4 at left edge 10 holding the frames of 11 and 12. -/
def example_window : ReorderWindow Nat :=
  { start_sequence := 10, window_size := 4,
    slots := [none, some 111, some 112, none], full_count := 2 }

/-- A table with one session (peer 7, tid 0) whose window is fresh. -/
def example_table : SessionTable Nat :=
  [((7, 0), { tid := 0, window := create 8 100, amsdu_supported := false })]

end RxReorder

/-!
# Wireless-extension handlers (`mlinux/moal_wext.c`)

The handlers are embedded from the C source.  Kernel services they call
(`memcmp`, `memset`, `memcpy`, `strncpy`, `strlen`) follow the kernel's
`lib/string.c` contracts; macros of headers that are not among the sources
(`isprint`, `IW_RETRY_LIMIT`) are parameters, and error numbers are kept
symbolic.
-/

namespace MoalWext

/-- The error numbers the handlers return (negated); the numeric values live in
the kernel's errno headers and are kept symbolic here. -/
inductive Errno where
  | E2BIG
  | EINVAL
  | ENOMEM
  | EFAULT
  | EOPNOTSUPP
deriving DecidableEq, Repr

/-- The `int` result of a handler: `0` (`ok`) or `-errno` (`neg`). -/
inductive Ret where
  | ok
  | neg (e : Errno)
deriving DecidableEq, Repr

/-- The `BOOLEAN` result values `MTRUE` / `MFALSE`. -/
inductive BOOLEAN where
  | MFALSE
  | MTRUE
deriving DecidableEq, Repr

/-- The C record `mlan_802_11_ssid`: the length field and the byte buffer. -/
structure mlan_802_11_ssid where
  ssid_len : Nat
  ssid : List Nat
deriving DecidableEq, Repr

/-- The loop of the kernel's `memcmp`: compare `count` bytes from index `k` on
and return the first non-zero difference of two bytes, else 0. -/
def memcmp_loop (cs ct : List Nat) : Nat → Nat → Int
  | 0, _ => 0
  | count + 1, k =>
    if (cs.getD k 0 : Int) - (ct.getD k 0 : Int) ≠ 0 then
      (cs.getD k 0 : Int) - (ct.getD k 0 : Int)
    else memcmp_loop cs ct count (k + 1)

/-- The kernel's `memcmp(cs, ct, count)`. -/
def memcmp (cs ct : List Nat) (count : Nat) : Int :=
  memcmp_loop cs ct count 0

/-- Embedding of `woal_ssid_cmp` (moal_wext.c): `-1` when a pointer is null or
the lengths differ, else `memcmp` over `ssid1->ssid_len` bytes.  A null pointer
is `none`. -/
def woal_ssid_cmp (ssid1 ssid2 : Option mlan_802_11_ssid) : Int :=
  match ssid1, ssid2 with
  | some s1, some s2 =>
    if s1.ssid_len ≠ s2.ssid_len then -1
    else memcmp s1.ssid s2.ssid s1.ssid_len
  | _, _ => -1

/-- The C record `struct iw_freq` (mantissa, exponent, channel index, flags). -/
structure iw_freq where
  m : Int
  e : Int
  i : Int
  flags : Nat
deriving DecidableEq, Repr, Inhabited

/-- The body of the `if` of `woal_sort_channels`: the fields `i` and `m` of
`freq[i]` and `freq[j]` are exchanged through `temp`; `e` and `flags` stay. -/
def exchange (freq : List iw_freq) (i j : Nat) : List iw_freq :=
  let temp_i := (freq.getD i default).i
  let temp_m := (freq.getD i default).m
  let freq1 := freq.set i { (freq.getD i default) with
    i := (freq.getD j default).i, m := (freq.getD j default).m }
  freq1.set j { (freq1.getD j default) with i := temp_i, m := temp_m }

/-- The inner loop of `woal_sort_channels`, `for (j = i + 1; j < num; j++)`:
the first argument counts the iterations left, the second is `j`. -/
def sort_inner (i : Nat) : Nat → Nat → List iw_freq → List iw_freq
  | 0, _, freq => freq
  | n + 1, j, freq =>
    sort_inner i n (j + 1)
      (if (freq.getD i default).i > (freq.getD j default).i then exchange freq i j else freq)

/-- The outer loop of `woal_sort_channels`, `for (i = 0; i < num; i++)`: the
first argument counts the iterations left, the second is `i`. -/
def sort_outer (num : Nat) : Nat → Nat → List iw_freq → List iw_freq
  | 0, _, freq => freq
  | n + 1, i, freq => sort_outer num n (i + 1) (sort_inner i (num - (i + 1)) (i + 1) freq)

/-- Embedding of `woal_sort_channels(freq, num)` (moal_wext.c): the array after
the call. -/
def woal_sort_channels (freq : List iw_freq) (num : Nat) : List iw_freq :=
  sort_outer num num 0 freq

/-- The loop of `woal_ssid_valid`: the first argument counts the iterations
left, the second is `ssid_idx`; it returns `MFALSE` at the first byte that is
not printable. -/
def ssid_valid_loop (isprint : Nat → Bool) (ssid : List Nat) : Nat → Nat → BOOLEAN
  | 0, _ => BOOLEAN.MTRUE
  | n + 1, ssid_idx =>
    if !isprint (ssid.getD ssid_idx 0) then BOOLEAN.MFALSE
    else ssid_valid_loop isprint ssid n (ssid_idx + 1)

/-- Embedding of `woal_ssid_valid(pssid)` (moal_wext.c); the `<linux/ctype.h>`
test `isprint` is a parameter. -/
def woal_ssid_valid (isprint : Nat → Bool) (pssid : mlan_802_11_ssid) : BOOLEAN :=
  ssid_valid_loop isprint pssid.ssid pssid.ssid_len 0

/-- The part of `moal_private` the nick-name handlers use: the byte buffer
`nick_name` (its length is `sizeof(priv->nick_name)`). -/
structure moal_private where
  nick_name : List Nat
deriving DecidableEq, Repr

/-- The kernel's `memset(s, c, count)` on a byte buffer. -/
def memset (s : List Nat) (c count : Nat) : List Nat :=
  List.replicate count c ++ s.drop count

/-- The kernel's `memcpy(dest, src, count)` on byte buffers. -/
def memcpy (dest src : List Nat) (count : Nat) : List Nat :=
  src.take count ++ dest.drop count

/-- The loop of the kernel's `strncpy`: `count` bytes are written; the source
advances only past non-NUL bytes, so the rest is padded with NUL. -/
def strncpy_loop : Nat → List Nat → List Nat
  | 0, _ => []
  | count + 1, src =>
    src.headD 0 :: strncpy_loop count (if src.headD 0 ≠ 0 then src.tail else src)

/-- The kernel's `strncpy(dest, src, count)` on byte buffers. -/
def strncpy (dest src : List Nat) (count : Nat) : List Nat :=
  strncpy_loop count src ++ dest.drop count

/-- The kernel's `strlen(s)`: the number of bytes before the first NUL. -/
def strlen (s : List Nat) : Nat :=
  (s.takeWhile (fun b => b ≠ 0)).length

/-- Embedding of `woal_set_nick` (moal_wext.c): `extra` holds the name and
`length` is `dwrq->length`.  Returns the result and the private data. -/
def woal_set_nick (priv : moal_private) (extra : List Nat) (length : Nat) :
    Ret × moal_private :=
  if length > 16 then (Ret.neg Errno.E2BIG, priv)
  else
    (Ret.ok,
     { nick_name := memcpy (memset priv.nick_name 0 priv.nick_name.length) extra length })

/-- Embedding of `woal_get_nick` (moal_wext.c): `extra` is the output buffer.
Returns the result, the buffer and `dwrq->length`. -/
def woal_get_nick (priv : moal_private) (extra : List Nat) : Ret × List Nat × Nat :=
  (Ret.ok, (strncpy extra priv.nick_name 16).set 16 0,
   strlen ((strncpy extra priv.nick_name 16).set 16 0) + 1)

/-- Minimum transmission retry count: `#define TX_RETRY_MIN 0`. -/
def TX_RETRY_MIN : Int := 0

/-- Maximum transmission retry count: `#define TX_RETRY_MAX 14`. -/
def TX_RETRY_MAX : Int := 14

/-- The fields of `struct iw_param` that `woal_set_retry` reads. -/
structure iw_param where
  value : Int
  flags : Nat
deriving DecidableEq, Repr

/-- What `woal_set_retry` does to the request: it is allocated, sent to the
firmware with a retry count, and freed. -/
inductive RetryEffect where
  | allocated
  | sent (retry_count : Int)
  | freed
deriving DecidableEq, Repr

/-- Embedding of `woal_set_retry` (moal_wext.c).  `IW_RETRY_LIMIT` is the
`<linux/wireless.h>` flag; `alloc_ok` tells whether `woal_alloc_mlan_ioctl_req`
returns a request and `ioctl_ok` whether `woal_request_ioctl` reports
`MLAN_STATUS_SUCCESS`.  Returns the result and what happened to the request. -/
def woal_set_retry (IW_RETRY_LIMIT : Nat) (alloc_ok ioctl_ok : Bool) (vwrq : iw_param) :
    Ret × List RetryEffect :=
  if vwrq.flags = IW_RETRY_LIMIT then
    if vwrq.value < TX_RETRY_MIN ∨ vwrq.value > TX_RETRY_MAX then
      (Ret.neg Errno.EINVAL, [])
    else if !alloc_ok then (Ret.neg Errno.ENOMEM, [])
    else if !ioctl_ok then
      (Ret.neg Errno.EFAULT,
       [RetryEffect.allocated, RetryEffect.sent vwrq.value, RetryEffect.freed])
    else
      (Ret.ok, [RetryEffect.allocated, RetryEffect.sent vwrq.value, RetryEffect.freed])
  else (Ret.neg Errno.EOPNOTSUPP, [])

/-- An unsorted channel list used to exercise the sort. -/
def example_channels : List iw_freq :=
  [{ m := 2462, e := 1, i := 11, flags := 0 }, { m := 2412, e := 1, i := 1, flags := 0 },
   { m := 2437, e := 1, i := 6, flags := 0 }, { m := 2412, e := 1, i := 1, flags := 0 }]

/-- The macro `MIN(a, b)` of the driver headers, `((a) < (b) ? (a) : (b))`. -/
def MIN (a b : Nat) : Nat :=
  if a < b then a else b

/-- The record `moal_802_11_rates` as `woal_get_data_rates` leaves it: the count
`num_of_rates` and the supported-rate bytes `rates`. -/
structure moal_802_11_rates where
  num_of_rates : Nat
  rates : List Nat
deriving DecidableEq, Repr

/-- The bit-rate fields of `struct iw_range`: the byte `num_bitrates` and the
array `bitrate[IW_MAX_BITRATES]`. -/
structure iw_range where
  num_bitrates : Nat
  bitrate : List Int
deriving DecidableEq, Repr

/-- The bit-rate loop of `woal_get_range`,
`for (i = 0; i < MIN(range->num_bitrates, IW_MAX_BITRATES) && rates.rates[i]; i++)`
with the body `range->bitrate[i] = (rates.rates[i] & 0x7f) * 500000`: the first
argument counts the iterations the bound `MIN(...)` still allows, the second
is `i`.  Returns the final `i` and the array. -/
def bitrate_loop (rates : List Nat) : Nat → Nat → List Int → Nat × List Int
  | 0, i, bitrate => (i, bitrate)
  | n + 1, i, bitrate =>
    if rates.getD i 0 ≠ 0 then
      bitrate_loop rates n (i + 1)
        (bitrate.set i (((rates.getD i 0 &&& 0x7f : Nat) : Int) * 500000))
    else (i, bitrate)

/-- Embedding of the bit-rate part of `woal_get_range` (moal_wext.c): `range` is
zeroed by `memset`, `range->num_bitrates = rates.num_of_rates` is stored into
the `__u8` field, the loop fills `bitrate`, and `range->num_bitrates = i` is
stored into the `__u8` field.  `IW_MAX_BITRATES` is the `<linux/wireless.h>`
constant, the size of `bitrate`; `rates` is what `woal_get_data_rates` left.
The rest of the function does not touch the two fields. -/
def woal_get_range (IW_MAX_BITRATES : Nat) (rates : moal_802_11_rates) : iw_range :=
  { num_bitrates :=
      (bitrate_loop rates.rates (MIN (rates.num_of_rates % 256) IW_MAX_BITRATES) 0
        (List.replicate IW_MAX_BITRATES 0)).1 % 256,
    bitrate :=
      (bitrate_loop rates.rates (MIN (rates.num_of_rates % 256) IW_MAX_BITRATES) 0
        (List.replicate IW_MAX_BITRATES 0)).2 }

/-- The rates of an 802.11b/g interface: twelve rates, the four basic ones
flagged with `0x80`, in a buffer of fourteen bytes. -/
def example_rates : moal_802_11_rates :=
  { num_of_rates := 12,
    rates := [0x82, 0x84, 0x8b, 0x96, 0x0c, 0x12, 0x18, 0x24, 0x30, 0x48, 0x60, 0x6c, 0, 0] }

end MoalWext

/-!
# X-Box pad driver (`drivers/input/joystick/xpad.c`)

`xpad_probe`, `xpad_disconnect` and `xpad360w_process_packet` are embedded from
the C source.  The kernel services they call are represented by their
outcome (whether an allocation succeeds, which error a helper returns); error
numbers are kept symbolic.
-/

namespace Xpad

/-- Length of a packet buffer: `#define XPAD_PKT_LEN 32`. -/
def XPAD_PKT_LEN : Nat := 32

/-- D-pad mapped to buttons: `#define MAP_DPAD_TO_BUTTONS 0`. -/
def MAP_DPAD_TO_BUTTONS : Int := 0

/-- D-pad mapped to axes: `#define MAP_DPAD_TO_AXES 1`. -/
def MAP_DPAD_TO_AXES : Int := 1

/-- D-pad mapping left to the module parameter: `#define MAP_DPAD_UNKNOWN 2`. -/
def MAP_DPAD_UNKNOWN : Int := 2

/-- Original X-Box pad: `#define XTYPE_XBOX 0`. -/
def XTYPE_XBOX : Int := 0

/-- Wired Xbox 360 pad: `#define XTYPE_XBOX360 1`. -/
def XTYPE_XBOX360 : Int := 1

/-- Wireless Xbox 360 receiver: `#define XTYPE_XBOX360W 2`. -/
def XTYPE_XBOX360W : Int := 2

/-- Type to be found out from the interface: `#define XTYPE_UNKNOWN 3`. -/
def XTYPE_UNKNOWN : Int := 3

/-- One row of the C table `xpad_device[]`. -/
structure xpad_device_entry where
  idVendor : Nat
  idProduct : Nat
  name : String
  dpad_mapping : Int
  xtype : Int
deriving DecidableEq, Repr

/-- The C table `xpad_device[]`, row by row; the last row (vendor 0) is the
terminating generic entry. -/
def xpad_device : List xpad_device_entry :=
  [
    { idVendor := 0x045e, idProduct := 0x0202, name := "Microsoft X-Box pad v1 (US)",
      dpad_mapping := MAP_DPAD_TO_AXES, xtype := XTYPE_XBOX },
    { idVendor := 0x045e, idProduct := 0x0289, name := "Microsoft X-Box pad v2 (US)",
      dpad_mapping := MAP_DPAD_TO_AXES, xtype := XTYPE_XBOX },
    { idVendor := 0x045e, idProduct := 0x0285, name := "Microsoft X-Box pad (Japan)",
      dpad_mapping := MAP_DPAD_TO_AXES, xtype := XTYPE_XBOX },
    { idVendor := 0x045e, idProduct := 0x0287, name := "Microsoft Xbox Controller S",
      dpad_mapping := MAP_DPAD_TO_AXES, xtype := XTYPE_XBOX },
    { idVendor := 0x045e, idProduct := 0x0719, name := "Xbox 360 Wireless Receiver",
      dpad_mapping := MAP_DPAD_TO_AXES, xtype := XTYPE_XBOX360W },
    { idVendor := 0x0c12, idProduct := 0x8809, name := "RedOctane Xbox Dance Pad",
      dpad_mapping := MAP_DPAD_TO_BUTTONS, xtype := XTYPE_XBOX },
    { idVendor := 0x044f, idProduct := 0x0f07, name := "Thrustmaster, Inc. Controller",
      dpad_mapping := MAP_DPAD_TO_AXES, xtype := XTYPE_XBOX },
    { idVendor := 0x046d, idProduct := 0xc242, name := "Logitech Chillstream Controller",
      dpad_mapping := MAP_DPAD_TO_AXES, xtype := XTYPE_XBOX360 },
    { idVendor := 0x046d, idProduct := 0xca84, name := "Logitech Xbox Cordless Controller",
      dpad_mapping := MAP_DPAD_TO_AXES, xtype := XTYPE_XBOX },
    { idVendor := 0x046d, idProduct := 0xca88, name := "Logitech Compact Controller for Xbox",
      dpad_mapping := MAP_DPAD_TO_AXES, xtype := XTYPE_XBOX },
    { idVendor := 0x05fd, idProduct := 0x1007, name := "Mad Catz Controller (unverified)",
      dpad_mapping := MAP_DPAD_TO_AXES, xtype := XTYPE_XBOX },
    { idVendor := 0x05fd, idProduct := 0x107a, name := "InterAct \x27PowerPad Pro\x27 X-Box pad (Germany)",
      dpad_mapping := MAP_DPAD_TO_AXES, xtype := XTYPE_XBOX },
    { idVendor := 0x0738, idProduct := 0x4516, name := "Mad Catz Control Pad",
      dpad_mapping := MAP_DPAD_TO_AXES, xtype := XTYPE_XBOX },
    { idVendor := 0x0738, idProduct := 0x4522, name := "Mad Catz LumiCON",
      dpad_mapping := MAP_DPAD_TO_AXES, xtype := XTYPE_XBOX },
    { idVendor := 0x0738, idProduct := 0x4526, name := "Mad Catz Control Pad Pro",
      dpad_mapping := MAP_DPAD_TO_AXES, xtype := XTYPE_XBOX },
    { idVendor := 0x0738, idProduct := 0x4536, name := "Mad Catz MicroCON",
      dpad_mapping := MAP_DPAD_TO_AXES, xtype := XTYPE_XBOX },
    { idVendor := 0x0738, idProduct := 0x4540, name := "Mad Catz Beat Pad",
      dpad_mapping := MAP_DPAD_TO_BUTTONS, xtype := XTYPE_XBOX },
    { idVendor := 0x0738, idProduct := 0x4556, name := "Mad Catz Lynx Wireless Controller",
      dpad_mapping := MAP_DPAD_TO_AXES, xtype := XTYPE_XBOX },
    { idVendor := 0x0738, idProduct := 0x4716, name := "Mad Catz Wired Xbox 360 Controller",
      dpad_mapping := MAP_DPAD_TO_AXES, xtype := XTYPE_XBOX360 },
    { idVendor := 0x0738, idProduct := 0x6040, name := "Mad Catz Beat Pad Pro",
      dpad_mapping := MAP_DPAD_TO_BUTTONS, xtype := XTYPE_XBOX },
    { idVendor := 0x0c12, idProduct := 0x8802, name := "Zeroplus Xbox Controller",
      dpad_mapping := MAP_DPAD_TO_AXES, xtype := XTYPE_XBOX },
    { idVendor := 0x0c12, idProduct := 0x880a, name := "Pelican Eclipse PL-2023",
      dpad_mapping := MAP_DPAD_TO_AXES, xtype := XTYPE_XBOX },
    { idVendor := 0x0c12, idProduct := 0x8810, name := "Zeroplus Xbox Controller",
      dpad_mapping := MAP_DPAD_TO_AXES, xtype := XTYPE_XBOX },
    { idVendor := 0x0c12, idProduct := 0x9902, name := "HAMA VibraX - *FAULTY HARDWARE*",
      dpad_mapping := MAP_DPAD_TO_AXES, xtype := XTYPE_XBOX },
    { idVendor := 0x0e4c, idProduct := 0x1097, name := "Radica Gamester Controller",
      dpad_mapping := MAP_DPAD_TO_AXES, xtype := XTYPE_XBOX },
    { idVendor := 0x0e4c, idProduct := 0x2390, name := "Radica Games Jtech Controller",
      dpad_mapping := MAP_DPAD_TO_AXES, xtype := XTYPE_XBOX },
    { idVendor := 0x0e6f, idProduct := 0x0003, name := "Logic3 Freebird wireless Controller",
      dpad_mapping := MAP_DPAD_TO_AXES, xtype := XTYPE_XBOX },
    { idVendor := 0x0e6f, idProduct := 0x0005, name := "Eclipse wireless Controller",
      dpad_mapping := MAP_DPAD_TO_AXES, xtype := XTYPE_XBOX },
    { idVendor := 0x0e6f, idProduct := 0x0006, name := "Edge wireless Controller",
      dpad_mapping := MAP_DPAD_TO_AXES, xtype := XTYPE_XBOX },
    { idVendor := 0x0e6f, idProduct := 0x0006, name := "Pelican \x27TSZ\x27 Wired Xbox 360 Controller",
      dpad_mapping := MAP_DPAD_TO_AXES, xtype := XTYPE_XBOX360 },
    { idVendor := 0x0e8f, idProduct := 0x0201, name := "SmartJoy Frag Xpad/PS2 adaptor",
      dpad_mapping := MAP_DPAD_TO_AXES, xtype := XTYPE_XBOX },
    { idVendor := 0x0f30, idProduct := 0x0202, name := "Joytech Advanced Controller",
      dpad_mapping := MAP_DPAD_TO_AXES, xtype := XTYPE_XBOX },
    { idVendor := 0x0f30, idProduct := 0x8888, name := "BigBen XBMiniPad Controller",
      dpad_mapping := MAP_DPAD_TO_AXES, xtype := XTYPE_XBOX },
    { idVendor := 0x102c, idProduct := 0xff0c, name := "Joytech Wireless Advanced Controller",
      dpad_mapping := MAP_DPAD_TO_AXES, xtype := XTYPE_XBOX },
    { idVendor := 0x12ab, idProduct := 0x8809, name := "Xbox DDR dancepad",
      dpad_mapping := MAP_DPAD_TO_BUTTONS, xtype := XTYPE_XBOX },
    { idVendor := 0x1430, idProduct := 0x4748, name := "RedOctane Guitar Hero X-plorer",
      dpad_mapping := MAP_DPAD_TO_AXES, xtype := XTYPE_XBOX360 },
    { idVendor := 0x1430, idProduct := 0x8888, name := "TX6500+ Dance Pad (first generation)",
      dpad_mapping := MAP_DPAD_TO_BUTTONS, xtype := XTYPE_XBOX },
    { idVendor := 0x1bad, idProduct := 0xF016, name := "Mad Catz Wired Xbox 360 Controller",
      dpad_mapping := MAP_DPAD_TO_AXES, xtype := XTYPE_XBOX360 },
    { idVendor := 0x1bad, idProduct := 0xF900, name := "PDP Afterglow",
      dpad_mapping := MAP_DPAD_TO_AXES, xtype := XTYPE_XBOX360 },
    { idVendor := 0x045e, idProduct := 0x028e, name := "Microsoft X-Box 360 pad",
      dpad_mapping := MAP_DPAD_TO_AXES, xtype := XTYPE_XBOX360 },
    { idVendor := 0xffff, idProduct := 0xffff, name := "Chinese-made Xbox Controller",
      dpad_mapping := MAP_DPAD_TO_AXES, xtype := XTYPE_XBOX },
    { idVendor := 0x0000, idProduct := 0x0000, name := "Generic X-Box pad",
      dpad_mapping := MAP_DPAD_UNKNOWN, xtype := XTYPE_UNKNOWN }
  ]

/-- The lookup loop of `xpad_probe`,
`for (i = 0; xpad_device[i].idVendor; i++) if (vendor and product match) break;`:
the row at which it stops, the matching one or the terminating one. -/
def find_xpad_device : List xpad_device_entry → Nat → Nat → xpad_device_entry
  | [], _, _ =>
    { idVendor := 0, idProduct := 0, name := "Generic X-Box pad",
      dpad_mapping := MAP_DPAD_UNKNOWN, xtype := XTYPE_UNKNOWN }
  | e :: rest, vendor, product =>
    if e.idVendor = 0 then e
    else if vendor = e.idVendor ∧ product = e.idProduct then e
    else find_xpad_device rest vendor product

/-- The fields of `struct usb_xpad` the embedded functions read or write:
whether `dev` is non-null, `pad_present`, `input_name`, `dpad_mapping` and
`xtype`. -/
structure usb_xpad where
  dev_registered : Bool
  pad_present : Int
  input_name : String
  dpad_mapping : Int
  xtype : Int
deriving DecidableEq, Repr

/-- What `xpad_probe` reads of the interface and its device: an identity for
the interface, the device ids, `bInterfaceProtocol`, and whether
`bInterfaceClass == USB_CLASS_VENDOR_SPEC`. -/
structure usb_interface where
  intf : Nat
  idVendor : Nat
  idProduct : Nat
  bInterfaceProtocol : Nat
  class_vendor_spec : Bool
deriving DecidableEq, Repr

/-- Error numbers: `ENOMEM` and whatever a helper returns. -/
inductive Errno where
  | ENOMEM
  | other (code : Nat)
deriving DecidableEq, Repr

/-- The `int` result of `xpad_probe`: `0` (`ok`) or a negative error. -/
inductive Ret where
  | ok
  | neg (e : Errno)
deriving DecidableEq, Repr

/-- Outcomes of the kernel services `xpad_probe` calls: the three allocations
(`kzalloc`, `usb_buffer_alloc`, `usb_alloc_urb`) and the error, if any, of
`xpad_init_output`, `xpad_init_ff`, `usb_submit_urb`,
`allocate_xpad_input_device` and `xpad_led_probe`. -/
structure ProbeEnv where
  kzalloc_ok : Bool
  idata_ok : Bool
  irq_in_ok : Bool
  init_output : Option Errno
  init_ff : Option Errno
  submit_urb : Option Errno
  allocate_input : Option Errno
  led_probe : Option Errno
deriving DecidableEq, Repr

/-- The driver's global state: the counter `s_fast_device_count` and the
interface data (`usb_set_intfdata` / `usb_get_intfdata`) of every interface. -/
structure xpad_driver where
  s_fast_device_count : Int
  intfdata : Nat → Option usb_xpad

/-- The assignment `usb_set_intfdata(intf, data)`. -/
def usb_set_intfdata (st : xpad_driver) (intf : Nat) (data : Option usb_xpad) : xpad_driver :=
  { st with intfdata := fun i => if i = intf then data else st.intfdata i }

/-- The pad `xpad_probe` fills in before it touches the hardware: `dev = NULL`,
`pad_present = 0` (from `kzalloc`), the mapping and type of the table row, the
mapping `!dpad_to_buttons` when the row says `MAP_DPAD_UNKNOWN`, and the type
read off the interface when the row says `XTYPE_UNKNOWN`. -/
def probe_fill (dpad_to_buttons : Int) (intf : usb_interface) (e : xpad_device_entry) :
    usb_xpad :=
  { dev_registered := false,
    pad_present := 0,
    input_name := e.name,
    dpad_mapping :=
      if e.dpad_mapping = MAP_DPAD_UNKNOWN then (if dpad_to_buttons = 0 then 1 else 0)
      else e.dpad_mapping,
    xtype :=
      if e.xtype = XTYPE_UNKNOWN then
        (if intf.class_vendor_spec then
          (if intf.bInterfaceProtocol = 129 then XTYPE_XBOX360W else XTYPE_XBOX360)
         else XTYPE_XBOX)
      else e.xtype }

/-- Embedding of `xpad_probe` (xpad.c).  Returns the result and the driver
state.  The steps, in the order of the source: skip protocol 130; table
lookup; refuse at 8 devices (returning 0); the three allocations; fill in the
pad; `xpad_init_output`; `xpad_init_ff`; then for a wireless receiver store the
interface data and submit the URB, else register the input device, probe the
LED and store the interface data; finally count the device. -/
def xpad_probe (dpad_to_buttons : Int) (st : xpad_driver) (intf : usb_interface)
    (env : ProbeEnv) : Ret × xpad_driver :=
  if intf.bInterfaceProtocol = 130 then (Ret.ok, st)
  else if st.s_fast_device_count ≥ 8 then (Ret.ok, st)
  else if !env.kzalloc_ok then (Ret.neg Errno.ENOMEM, st)
  else if !env.idata_ok then (Ret.neg Errno.ENOMEM, st)
  else if !env.irq_in_ok then (Ret.neg Errno.ENOMEM, st)
  else
    match env.init_output with
    | some e => (Ret.neg e, st)
    | none =>
      match env.init_ff with
      | some e => (Ret.neg e, st)
      | none =>
        if (probe_fill dpad_to_buttons intf
              (find_xpad_device xpad_device intf.idVendor intf.idProduct)).xtype =
            XTYPE_XBOX360W then
          match env.submit_urb with
          | some e =>
            (Ret.neg e,
             usb_set_intfdata st intf.intf
               (some (probe_fill dpad_to_buttons intf
                 (find_xpad_device xpad_device intf.idVendor intf.idProduct))))
          | none =>
            (Ret.ok,
             { usb_set_intfdata st intf.intf
                 (some (probe_fill dpad_to_buttons intf
                   (find_xpad_device xpad_device intf.idVendor intf.idProduct))) with
               s_fast_device_count := st.s_fast_device_count + 1 })
        else
          match env.allocate_input with
          | some e => (Ret.neg e, st)
          | none =>
            match env.led_probe with
            | some e => (Ret.neg e, st)
            | none =>
              (Ret.ok,
               { usb_set_intfdata st intf.intf
                   (some { probe_fill dpad_to_buttons intf
                      (find_xpad_device xpad_device intf.idVendor intf.idProduct) with
                      dev_registered := true }) with
                 s_fast_device_count := st.s_fast_device_count + 1 })

/-- Embedding of `xpad_disconnect` (xpad.c): the interface data is read and
cleared; when it was non-null the pad is released and the counter
decremented. -/
def xpad_disconnect (st : xpad_driver) (intf : Nat) : xpad_driver :=
  match st.intfdata intf with
  | some _ =>
    { usb_set_intfdata st intf none with s_fast_device_count := st.s_fast_device_count - 1 }
  | none => usb_set_intfdata st intf none

/-- A call the USB core makes into the driver. -/
inductive usb_event where
  | probe (intf : usb_interface) (env : ProbeEnv)
  | disconnect (intf : Nat)

/-- The driver state together with the set of interfaces bound to the driver
(those whose probe returned 0 and that were not disconnected since). -/
structure usb_core where
  driver : xpad_driver
  bound : Nat → Bool

/-- The state at module load: no device counted, no interface data, nothing
bound. -/
def usb_core_init : usb_core :=
  { driver := { s_fast_device_count := 0, intfdata := fun _ => none },
    bound := fun _ => false }

/-- One call of the USB core: an unbound interface may be probed and is bound
when the probe returns 0; only a bound interface is disconnected.  `none` when
the call does not respect this discipline. -/
def usb_step (dpad_to_buttons : Int) (s : usb_core) : usb_event → Option usb_core
  | usb_event.probe intf env =>
    if s.bound intf.intf then none
    else
      some { driver := (xpad_probe dpad_to_buttons s.driver intf env).2,
             bound := fun i =>
               if i = intf.intf then
                 decide ((xpad_probe dpad_to_buttons s.driver intf env).1 = Ret.ok)
               else s.bound i }
  | usb_event.disconnect intf =>
    if s.bound intf then
      some { driver := xpad_disconnect s.driver intf,
             bound := fun i => if i = intf then false else s.bound i }
    else none

/-- A sequence of calls of the USB core. -/
def usb_run (dpad_to_buttons : Int) : usb_core → List usb_event → Option usb_core
  | s, [] => some s
  | s, ev :: rest =>
    match usb_step dpad_to_buttons s ev with
    | some s2 => usb_run dpad_to_buttons s2 rest
    | none => none

/-- The pending attach queue: the array `s_xpad_process[16]` of pad pointers
(a pad is named by a number, `none` is a null entry) and `s_xpad_count`. -/
structure attach_queue where
  s_xpad_process : List (Option Nat)
  s_xpad_count : Nat
deriving DecidableEq, Repr

/-- The queue at module load: 16 null entries, `s_xpad_count = 0`. -/
def attach_queue_init : attach_queue :=
  { s_xpad_process := List.replicate 16 none, s_xpad_count := 0 }

/-- What `xpad360w_process_packet` does besides updating the pad and the queue:
it schedules the attach work, or hands pad data to `xpad360_process_packet`
(the only place where it reports input events). -/
inductive packet_effect where
  | schedule_work
  | xpad360_process_packet (data : List Nat)
deriving DecidableEq, Repr

/-- Embedding of `xpad360w_process_packet` (xpad.c) for the pad `xpad`, named
`ptr` in the queue.  Returns the pad, the queue and the effects; `none` when
the store `s_xpad_process[s_xpad_count++] = xpad` falls outside the 16-entry
array. -/
def xpad360w_process_packet (ptr : Nat) (xpad : usb_xpad) (q : attach_queue)
    (data : List Nat) : Option (usb_xpad × attach_queue × List packet_effect) :=
  if data.getD 0 0 &&& 0x08 ≠ 0 then
    let present : Int :=
      if data.getD 1 0 &&& 0x80 ≠ 0 then (if xpad.pad_present ≠ 1 then 1 else xpad.pad_present)
      else (if xpad.pad_present ≠ 0 then 0 else xpad.pad_present)
    let changed : Bool :=
      if data.getD 1 0 &&& 0x80 ≠ 0 then decide (xpad.pad_present ≠ 1)
      else decide (xpad.pad_present ≠ 0)
    if changed then
      if q.s_xpad_count < q.s_xpad_process.length then
        some ({ xpad with pad_present := present },
              { s_xpad_process := q.s_xpad_process.set q.s_xpad_count (some ptr),
                s_xpad_count := q.s_xpad_count + 1 },
              [packet_effect.schedule_work])
      else none
    else some ({ xpad with pad_present := present }, q, [])
  else if data.getD 1 0 &&& 0x1 = 0 then some (xpad, q, [])
  else some (xpad, q, [packet_effect.xpad360_process_packet (data.drop 4)])

/-- A run of packets for one pad, each processed by `xpad360w_process_packet`
before the attach work gets to run. -/
def process_packets (ptr : Nat) : usb_xpad → attach_queue → List (List Nat) →
    Option (usb_xpad × attach_queue)
  | xpad, q, [] => some (xpad, q)
  | xpad, q, data :: rest =>
    match xpad360w_process_packet ptr xpad q data with
    | some r => process_packets ptr r.1 r.2.1 rest
    | none => none

/-- Eight wired Xbox 360 pads on the interfaces 1..8. -/
def eight_pads : List usb_interface :=
  (List.range 8).map (fun k =>
    { intf := k + 1, idVendor := 0x045e, idProduct := 0x028e, bInterfaceProtocol := 1,
      class_vendor_spec := true })

/-- An environment in which every kernel service succeeds. -/
def env_ok : ProbeEnv :=
  { kzalloc_ok := true, idata_ok := true, irq_in_ok := true, init_output := none,
    init_ff := none, submit_urb := none, allocate_input := none, led_probe := none }

/-- An interface of a wireless receiver (045e:0719, protocol 129). -/
def receiver_interface : usb_interface :=
  { intf := 0, idVendor := 0x045e, idProduct := 0x0719, bInterfaceProtocol := 129,
    class_vendor_spec := true }

/-- The calls that drive the device counter below zero: the receiver interface
is probed and `usb_submit_urb` fails; eight pads are probed; the receiver
interface is probed again and accepted at the limit; all nine interfaces are
disconnected. -/
def stale_intfdata_calls : List usb_event :=
  [usb_event.probe receiver_interface { env_ok with submit_urb := some (Errno.other 5) }] ++
  eight_pads.map (fun i => usb_event.probe i env_ok) ++
  [usb_event.probe receiver_interface env_ok] ++
  eight_pads.map (fun i => usb_event.disconnect i.intf) ++
  [usb_event.disconnect receiver_interface.intf]

/-- A pad as `xpad_probe` leaves it for a wireless receiver. -/
def receiver_pad : usb_xpad :=
  { dev_registered := false, pad_present := 0, input_name := "Xbox 360 Wireless Receiver",
    dpad_mapping := MAP_DPAD_TO_AXES, xtype := XTYPE_XBOX360W }

/-- Status packets that report the controller present, absent, present, ...:
`n` packets with the status-change bit `0x08` in byte 0 and the presence bit
`0x80` of byte 1 alternating, starting with present. -/
def alternating_status (n : Nat) : List (List Nat) :=
  (List.range n).map (fun k => [0x08, if k % 2 = 0 then 0x80 else 0x00] ++ List.replicate 30 0)

/-- An interface of a pad that is not in the table (1234:5678), not of the
vendor-specific class. -/
def generic_interface : usb_interface :=
  { intf := 3, idVendor := 0x1234, idProduct := 0x5678, bInterfaceProtocol := 0,
    class_vendor_spec := false }

/-- The pad `xpad_probe` stores for `generic_interface` when `dpad_to_buttons`
is set. -/
def generic_pad : usb_xpad :=
  { dev_registered := true, pad_present := 0, input_name := "Generic X-Box pad",
    dpad_mapping := MAP_DPAD_TO_BUTTONS, xtype := XTYPE_XBOX }

/-- The table row of the RedOctane dance pad (0c12:8809), a listed pad whose
d-pad is mapped to buttons. -/
def dance_pad_row : xpad_device_entry :=
  { idVendor := 0x0c12, idProduct := 0x8809, name := "RedOctane Xbox Dance Pad",
    dpad_mapping := MAP_DPAD_TO_BUTTONS, xtype := XTYPE_XBOX }

/-- An interface of the RedOctane dance pad (0c12:8809). -/
def dance_pad_interface : usb_interface :=
  { intf := 4, idVendor := 0x0c12, idProduct := 0x8809, bInterfaceProtocol := 0,
    class_vendor_spec := false }

/-- The pad `xpad_probe` stores for `dance_pad_interface`, whatever
`dpad_to_buttons` is. -/
def dance_pad : usb_xpad :=
  { dev_registered := true, pad_present := 0, input_name := "RedOctane Xbox Dance Pad",
    dpad_mapping := MAP_DPAD_TO_BUTTONS, xtype := XTYPE_XBOX }

end Xpad

/-! ## Lemmas and theorems -/

namespace RxReorder

theorem MAX_TID_VALUE_eq : MAX_TID_VALUE = 4096 := by decide

theorem TWOPOW11_eq : TWOPOW11 = 2048 := by decide

theorem length_contiguous_run_le {α : Type} (l : List (Option α)) :
    (contiguous_run l).length ≤ l.length := by
  induction l with
  | nil => simp [contiguous_run]
  | cons a rest ih =>
    cases a with
    | none => simp [contiguous_run]
    | some f => simp [contiguous_run]; omega

theorem contiguous_run_getElem {α : Type} (l : List (Option α)) (i : Nat) (f : α)
    (h : (contiguous_run l)[i]? = some f) : l[i]? = some (some f) := by
  induction l generalizing i with
  | nil => simp [contiguous_run] at h
  | cons a rest ih =>
    cases a with
    | none => simp [contiguous_run] at h
    | some g =>
      cases i with
      | zero => simpa [contiguous_run] using h
      | succ j => simpa [contiguous_run] using ih j (by simpa [contiguous_run] using h)

theorem contiguous_run_stop {α : Type} (l : List (Option α)) :
    l[(contiguous_run l).length]? = none ∨ l[(contiguous_run l).length]? = some none := by
  induction l with
  | nil => simp [contiguous_run]
  | cons a rest ih =>
    cases a with
    | none => simp [contiguous_run]
    | some g => simpa [contiguous_run] using ih

theorem length_label_from {α : Type} (s : Nat) (run : List α) :
    (label_from s run).length = run.length := by
  induction run generalizing s with
  | nil => simp [label_from]
  | cons f fs ih => simp [label_from, ih]

theorem label_from_getElem {α : Type} (s : Nat) (run : List α) (i : Nat) (f : α)
    (h : run[i]? = some f) : (label_from s run)[i]? = some ((s + i) % MAX_TID_VALUE, f) := by
  induction run generalizing s i with
  | nil => simp at h
  | cons g fs ih =>
    cases i with
    | zero => simp at h; simp [label_from, h]
    | succ j =>
      simp at h
      simp only [label_from, List.getElem?_cons_succ]
      rw [ih (s + 1) j h, Nat.add_right_comm s 1 j, Nat.add_assoc s j 1]

theorem map_fst_label_from {α : Type} (s : Nat) (run : List α) :
    (label_from s run).map Prod.fst =
      (List.range run.length).map (fun i => (s + i) % MAX_TID_VALUE) := by
  induction run generalizing s with
  | nil => simp [label_from]
  | cons g fs ih =>
    simp only [label_from, List.map_cons, List.length_cons, List.range_succ_eq_map, ih,
      List.map_map]
    simp only [Nat.add_zero, List.cons.injEq, true_and]
    apply List.map_congr_left
    intro i _
    simp only [Function.comp, Nat.succ_eq_add_one, Nat.add_assoc, Nat.add_comm 1 i]
theorem distance_cases (a b : Nat) (ha : a < 4096) (hb : b < 4096) :
    (b ≤ a ∧ a - b < 2048 ∧ distance a b = (a : Int) - b) ∨
    (b ≤ a ∧ 2048 ≤ a - b ∧ distance a b = (a : Int) - b - 4096) ∨
    (a < b ∧ b - a ≤ 2048 ∧ distance a b = (a : Int) - b) ∨
    (a < b ∧ 2048 < b - a ∧ distance a b = (a : Int) - b + 4096) := by
  unfold distance
  simp only [MAX_TID_VALUE_eq, TWOPOW11_eq]
  rw [Nat.mod_eq_of_lt ha, Nat.mod_eq_of_lt hb]
  split_ifs with h <;> push_cast <;> omega

/-- Claim C9.  `MAX_TID_VALUE = (2 << 11)` is 4096 = 2^12 and
`TWOPOW11 = (2 << 10)` is 2048 = 2^11, exactly half of `MAX_TID_VALUE`. -/
theorem sequence_constants :
    MAX_TID_VALUE = 4096 ∧ MAX_TID_VALUE = 2 ^ 12 ∧ TWOPOW11 = 2048 ∧ TWOPOW11 = 2 ^ 11 ∧
    2 * TWOPOW11 = MAX_TID_VALUE := by
  decide

/-- Claim C8.  For sequence numbers `a`, `b` in [0, 4096): `distance a b` lies
in [-2048, 2047], is congruent to `a - b` modulo 4096 and is 0 iff `a = b`; and
for every size in 1..64, `is_in_window a b size` holds exactly when `a` is one of
`b, b + 1, ..., b + size - 1` modulo 4096, which are `size` distinct numbers. -/
theorem sequence_arithmetic (a b : Nat) (ha : a < MAX_TID_VALUE) (hb : b < MAX_TID_VALUE) :
    (-(TWOPOW11 : Int) ≤ distance a b ∧ distance a b ≤ (TWOPOW11 : Int) - 1) ∧
    distance a b ≡ (a : Int) - (b : Int) [ZMOD (MAX_TID_VALUE : Int)] ∧
    (distance a b = 0 ↔ a = b) ∧
    ∀ size : Nat, 1 ≤ size → size ≤ 64 →
      ((is_in_window a b size = true ↔ ∃ k, k < size ∧ a = (b + k) % MAX_TID_VALUE) ∧
       ∀ i j, i < size → j < size → (b + i) % MAX_TID_VALUE = (b + j) % MAX_TID_VALUE → i = j) := by
  rw [MAX_TID_VALUE_eq] at ha hb
  have hc := distance_cases a b ha hb
  simp only [MAX_TID_VALUE_eq, TWOPOW11_eq, is_in_window, decide_eq_true_eq]
  refine ⟨?_, ?_, ?_, ?_⟩
  · push_cast; omega
  · rw [Int.modEq_iff_dvd]
    rcases hc with h | h | h | h
    · exact ⟨0, by omega⟩
    · exact ⟨1, by push_cast; omega⟩
    · exact ⟨0, by omega⟩
    · exact ⟨-1, by push_cast; omega⟩
  · omega
  · intro size h1 h64
    refine ⟨⟨?_, ?_⟩, ?_⟩
    · intro h
      refine ⟨(distance a b).toNat, ?_, ?_⟩ <;> omega
    · rintro ⟨k, hk, rfl⟩
      omega
    · intro i j hi hj h
      omega

/-- Claim C1 (insert, in-order case).  For every well-formed window (size 1..64)
and every frame inserted at `start_sequence`, `insert` delivers that frame first
and then the frames of the maximal run of occupied slots that follow slot 0, in
increasing sequence order: `run` is that run, slot `i + 1` holds its `i`-th
frame, which is delivered at position `i + 1` with sequence number
`start_sequence + (i + 1)` modulo 4096, and the slot after the run is empty or
past the window.  Afterwards `start_sequence` is the number just past the last
delivered frame.  Scenario: size 64, start 0, the inserts 63, 62, ..., 1 are all
buffered and the insert of 0 then delivers 0..63 in ascending order. -/
theorem insert_in_order :
    (∀ (α : Type) (w : ReorderWindow α) (frame : α), WellFormed w →
      ∃ (frames : List (Nat × α)) (run : List α),
        (insert w w.start_sequence frame).2 = InsertResult.Delivered frames ∧
        frames.length = run.length + 1 ∧
        frames[0]? = some (w.start_sequence, frame) ∧
        run.length + 1 ≤ w.window_size ∧
        (∀ i f, run[i]? = some f →
          w.slots[i + 1]? = some (some f) ∧
          frames[i + 1]? = some ((w.start_sequence + (i + 1)) % MAX_TID_VALUE, f)) ∧
        (w.slots[run.length + 1]? = none ∨ w.slots[run.length + 1]? = some none) ∧
        (insert w w.start_sequence frame).1.start_sequence =
          (w.start_sequence + (run.length + 1)) % MAX_TID_VALUE) ∧
    ((insert_all (create 64 0 : ReorderWindow Nat)
        ((List.range 63).reverse.map (fun i => (i + 1, 1000 + (i + 1))))).2 =
        List.replicate 63 InsertResult.Buffered ∧
     (insert (insert_all (create 64 0 : ReorderWindow Nat)
        ((List.range 63).reverse.map (fun i => (i + 1, 1000 + (i + 1))))).1 0 1000).2 =
        InsertResult.Delivered ((List.range 64).map (fun i => (i, 1000 + i)))) := by
  refine ⟨?_, ?_, ?_⟩
  · intro α w frame hw
    obtain ⟨h1, h64, hlen, hst, hfc⟩ := hw
    refine ⟨(w.start_sequence, frame) ::
      label_from (w.start_sequence + 1) (contiguous_run (w.slots.drop 1)),
      contiguous_run (w.slots.drop 1), ?_, ?_, ?_, ?_, ?_, ?_, ?_⟩
    · simp only [insert, if_true]
    · simp [length_label_from]
    · simp
    · have := length_contiguous_run_le (w.slots.drop 1)
      simp only [List.length_drop] at this
      omega
    · intro i f hf
      refine ⟨?_, ?_⟩
      · have := contiguous_run_getElem _ _ _ hf
        rw [List.getElem?_drop] at this
        rw [← this]; congr 1; omega
      · simp only [List.getElem?_cons_succ]
        rw [label_from_getElem _ _ _ _ hf, Nat.add_right_comm w.start_sequence 1 i,
          Nat.add_assoc w.start_sequence i 1]
    · have := contiguous_run_stop (w.slots.drop 1)
      rw [List.getElem?_drop] at this
      rw [Nat.add_comm]
      exact this
    · simp only [insert, if_true]
  · decide
  · decide

theorem insert_delivers_consecutive {α : Type} (w : ReorderWindow α) (seq : Nat) (frame : α)
    (hst : w.start_sequence < MAX_TID_VALUE) :
    ∃ k, delivered_seqs (insert w seq frame).2 =
          (List.range k).map (fun i => (w.start_sequence + i) % MAX_TID_VALUE) ∧
      (insert w seq frame).1.start_sequence = (w.start_sequence + k) % MAX_TID_VALUE := by
  unfold insert
  split_ifs with h1 h2 h3
  · refine ⟨(contiguous_run (w.slots.drop 1)).length + 1, ?_, rfl⟩
    simp only [delivered_seqs, List.map_cons, map_fst_label_from, List.range_succ_eq_map,
      List.map_map, Nat.add_zero, h1, Nat.mod_eq_of_lt hst, List.cons.injEq, true_and]
    apply List.map_congr_left
    intro i _
    simp only [Function.comp, Nat.succ_eq_add_one, Nat.add_assoc, Nat.add_comm 1 i]
  · exact ⟨0, by simp [delivered_seqs], by simp [Nat.mod_eq_of_lt hst]⟩
  · split
    · exact ⟨0, by simp [delivered_seqs], by simp [Nat.mod_eq_of_lt hst]⟩
    · exact ⟨0, by simp [delivered_seqs], by simp [Nat.mod_eq_of_lt hst]⟩
  · exact ⟨0, by simp [delivered_seqs], by simp [Nat.mod_eq_of_lt hst]⟩

theorem delivered_by_consecutive {α : Type} (ins : List (Nat × α)) :
    ∀ (w : ReorderWindow α), w.start_sequence < MAX_TID_VALUE →
      ∃ n, delivered_by w ins =
        (List.range n).map (fun i => (w.start_sequence + i) % MAX_TID_VALUE) := by
  induction ins with
  | nil => intro w _; exact ⟨0, by simp [delivered_by, insert_all]⟩
  | cons x rest ih =>
    intro w hst
    obtain ⟨seq, frame⟩ := x
    obtain ⟨k, hk, hs⟩ := insert_delivers_consecutive w seq frame hst
    have hlt : (insert w seq frame).1.start_sequence < MAX_TID_VALUE := by
      rw [hs]; exact Nat.mod_lt _ (by decide)
    obtain ⟨n, hn⟩ := ih (insert w seq frame).1 hlt
    refine ⟨k + n, ?_⟩
    unfold delivered_by at hn ⊢
    simp only [insert_all, List.map_cons, List.flatten_cons, hn, hk, hs]
    rw [List.range_add, List.map_append, List.map_map]
    congr 1
    apply List.map_congr_left
    intro i _
    simp only [Function.comp, Nat.mod_add_mod, Nat.add_assoc]

theorem consecutive_getElem (s n i x : Nat)
    (h : ((List.range n).map (fun i => (s + i) % MAX_TID_VALUE))[i]? = some x) :
    i < n ∧ x = (s + i) % MAX_TID_VALUE := by
  simp only [List.getElem?_map, Option.map_eq_some'] at h
  obtain ⟨a, ha, rfl⟩ := h
  obtain ⟨hi, rfl⟩ := List.getElem?_eq_some.1 ha
  simp only [List.length_range] at hi
  simp only [List.getElem_range]
  exact ⟨hi, trivial⟩

theorem consecutive_nodup (s n : Nat) (hn : n ≤ MAX_TID_VALUE) :
    ((List.range n).map (fun i => (s + i) % MAX_TID_VALUE)).Nodup := by
  apply List.Nodup.map_on _ (List.nodup_range n)
  intro i hi j hj h
  simp only [List.mem_range] at hi hj
  rw [MAX_TID_VALUE_eq] at h hn
  omega

theorem unit_window_delivers (n : Nat) : ∀ s : Nat,
    delivered_by (create 1 (s % MAX_TID_VALUE) : ReorderWindow Nat)
      ((List.range' s n).map (fun i => (i % MAX_TID_VALUE, i))) =
    (List.range' s n).map (fun i => i % MAX_TID_VALUE) := by
  induction n with
  | zero => intro s; simp [delivered_by, insert_all]
  | succ m ih =>
    intro s
    have hstep : (insert (create 1 (s % MAX_TID_VALUE) : ReorderWindow Nat)
        (s % MAX_TID_VALUE) s) =
        (create 1 ((s + 1) % MAX_TID_VALUE),
          InsertResult.Delivered [(s % MAX_TID_VALUE, s)]) := by
      simp [insert, create, contiguous_run, label_from, occupied]
    have ih2 := ih (s + 1)
    unfold delivered_by at ih2 ⊢
    simp only [List.range'_succ, List.map_cons, insert_all, hstep, List.flatten_cons, ih2,
      delivered_seqs, List.map_nil, List.singleton_append]

/-- Claim C2 as stated fails: the sequence space has 4096 numbers, so on a
window of size 1 at start 0 the 4097 in-order inserts 0, 1, ..., 4095, 0 are all
delivered and the delivered sequence numbers contain 0 twice. -/
theorem delivered_repeats_after_wrap :
    WellFormed (create 1 0 : ReorderWindow Nat) ∧
    ¬ (delivered_by (create 1 0 : ReorderWindow Nat)
        ((List.range 4097).map (fun i => (i % 4096, i)))).Nodup := by
  refine ⟨by decide, ?_⟩
  have h := unit_window_delivers 4097 0
  rw [MAX_TID_VALUE_eq] at h
  rw [List.range_eq_range', show (0 : Nat) = 0 % 4096 from rfl, h]
  intro hnd
  rw [← List.range_eq_range', List.range_succ, List.map_append, List.nodup_append] at hnd
  exact hnd.2.2 (List.mem_map.2 ⟨0, List.mem_range.2 (by decide), rfl⟩) (by simp)

/-- Claim C2, amended.  For every list of inserts on a window whose left edge
is a 12-bit number, each delivered sequence number is the successor modulo 4096
of the one delivered before it (modular distance exactly 1, hence strictly
increasing in wrap-aware order), and no sequence number is delivered twice as
long as at most 4096 frames are delivered in total. -/
theorem delivered_in_modular_order {α : Type} (w : ReorderWindow α) (ins : List (Nat × α))
    (hst : w.start_sequence < MAX_TID_VALUE) :
    (∀ i x y, (delivered_by w ins)[i]? = some x → (delivered_by w ins)[i + 1]? = some y →
      y = (x + 1) % MAX_TID_VALUE ∧ distance y x = 1) ∧
    ((delivered_by w ins).length ≤ MAX_TID_VALUE → (delivered_by w ins).Nodup) := by
  obtain ⟨n, hn⟩ := delivered_by_consecutive ins w hst
  rw [hn]
  refine ⟨?_, ?_⟩
  · intro i x y hx hy
    obtain ⟨hi, rfl⟩ := consecutive_getElem _ _ _ _ hx
    obtain ⟨hj, rfl⟩ := consecutive_getElem _ _ _ _ hy
    have h1 := distance_cases ((w.start_sequence + (i + 1)) % 4096)
      ((w.start_sequence + i) % 4096) (Nat.mod_lt _ (by decide)) (Nat.mod_lt _ (by decide))
    rw [MAX_TID_VALUE_eq] at hst ⊢
    omega
  · intro hlen
    simp only [List.length_map, List.length_range] at hlen
    exact consecutive_nodup _ _ hlen

theorem occupied_le_length {α : Type} (l : List (Option α)) : occupied l ≤ l.length := by
  induction l with
  | nil => simp [occupied]
  | cons a rest ih => cases a <;> simp [occupied] <;> omega

theorem occupied_replicate_none {α : Type} (n : Nat) :
    occupied (List.replicate n (none : Option α)) = 0 := by
  induction n with
  | zero => simp [occupied]
  | succ m ih => simp [List.replicate_succ, occupied, ih]

theorem occupied_map_none {α : Type} (l : List (Option α)) :
    occupied (l.map (fun _ => (none : Option α))) = 0 := by
  induction l with
  | nil => simp [occupied]
  | cons a rest ih => simp only [List.map_cons, occupied, ih]

theorem occupied_set_empty {α : Type} (l : List (Option α)) (k : Nat) (f : α)
    (h : l[k]? = some none) : occupied (l.set k (some f)) = occupied l + 1 := by
  induction l generalizing k with
  | nil => simp at h
  | cons a rest ih =>
    cases k with
    | zero =>
      simp at h
      subst h
      simp [occupied]
    | succ j =>
      simp at h
      cases a <;> simp [occupied, ih j h]

theorem create_wellFormed {α : Type} (size start : Nat) (hs : 1 ≤ size ∧ size ≤ 64)
    (hst : start < MAX_TID_VALUE) : WellFormed (create size start : ReorderWindow α) := by
  refine ⟨hs.1, hs.2, ?_, hst, ?_⟩
  · simp [create]
  · simp [create, occupied_replicate_none]

theorem insert_wellFormed {α : Type} (w : ReorderWindow α) (seq : Nat) (frame : α)
    (hw : WellFormed w) : WellFormed (insert w seq frame).1 := by
  obtain ⟨h1, h64, hlen, hst, hfc⟩ := hw
  unfold insert
  split_ifs with c1 c2 c3
  · refine ⟨h1, h64, ?_, Nat.mod_lt _ (by decide), rfl⟩
    have := length_contiguous_run_le (w.slots.drop 1)
    simp only [List.length_drop] at this
    simp only [List.length_append, List.length_drop, List.length_replicate]
    omega
  · exact ⟨h1, h64, hlen, hst, hfc⟩
  · split
    · rename_i hslot
      refine ⟨h1, h64, ?_, hst, ?_⟩
      · simpa using hlen
      · simp only
        rw [occupied_set_empty _ _ _ hslot, hfc]
    · exact ⟨h1, h64, hlen, hst, hfc⟩
  · exact ⟨h1, h64, hlen, hst, hfc⟩

theorem force_advance_wellFormed {α : Type} (w : ReorderWindow α) (target : Nat)
    (ht : target < MAX_TID_VALUE) (hw : WellFormed w) :
    WellFormed (force_advance w target).1 := by
  obtain ⟨h1, h64, hlen, hst, hfc⟩ := hw
  refine ⟨h1, h64, ?_, ht, rfl⟩
  simp [force_advance]

theorem flush_all_wellFormed {α : Type} (w : ReorderWindow α) (hw : WellFormed w) :
    WellFormed (flush_all w).1 := by
  obtain ⟨h1, h64, hlen, hst, hfc⟩ := hw
  refine ⟨h1, h64, ?_, hst, ?_⟩
  · simpa [flush_all] using hlen
  · simp only [flush_all, occupied_map_none]

theorem reachable_wellFormed {α : Type} (w : ReorderWindow α) (h : Reachable w) :
    WellFormed w := by
  induction h with
  | fresh size start hs hst => exact create_wellFormed size start hs hst
  | step w seq frame _ ih => exact insert_wellFormed w seq frame ih
  | advance w target ht _ ih => exact force_advance_wellFormed w target ht ih
  | flush w _ ih => exact flush_all_wellFormed w ih

theorem distance_self (a : Nat) : distance a a = 0 := by
  unfold distance
  have h : a % MAX_TID_VALUE < MAX_TID_VALUE := Nat.mod_lt _ (by decide)
  rw [MAX_TID_VALUE_eq] at h
  simp only [MAX_TID_VALUE_eq, TWOPOW11_eq]
  have : (a % 4096 + 4096 - a % 4096) % 4096 = 0 := by omega
  simp [this]

/-- Claim C3.  On a well-formed window, inserting a sequence number that lies
more than `window_size - 1` ahead of `start_sequence` returns `OutOfWindow`,
delivers nothing and leaves the window (start, slots, full_count) unchanged; and
in every reachable state the number of occupied slots is at most `window_size`
(and `full_count` is that number). -/
theorem insert_out_of_window :
    (∀ (α : Type) (w : ReorderWindow α) (seq : Nat) (frame : α), WellFormed w →
      (w.window_size : Int) - 1 < distance seq w.start_sequence →
      insert w seq frame = (w, InsertResult.OutOfWindow) ∧
      delivered_seqs (insert w seq frame).2 = [] ∧
      (insert w seq frame).1.start_sequence = w.start_sequence ∧
      (insert w seq frame).1.slots = w.slots ∧
      (insert w seq frame).1.full_count = w.full_count) ∧
    (∀ (α : Type) (w : ReorderWindow α), Reachable w →
      occupied w.slots ≤ w.window_size ∧ w.full_count = occupied w.slots ∧
      w.slots.length = w.window_size) := by
  refine ⟨?_, ?_⟩
  · intro α w seq frame hw hd
    have h1 := hw.1
    have hins : insert w seq frame = (w, InsertResult.OutOfWindow) := by
      unfold insert
      have hne : seq ≠ w.start_sequence := by
        intro h
        rw [h, distance_self] at hd
        omega
      rw [if_neg hne, if_neg (by omega), if_neg (by omega)]
    rw [hins]
    exact ⟨rfl, rfl, rfl, rfl, rfl⟩
  · intro α w hr
    obtain ⟨_, _, hlen, _, hfc⟩ := reachable_wellFormed w hr
    refine ⟨?_, hfc, hlen⟩
    rw [← hlen]
    exact occupied_le_length w.slots

theorem stale_frames_ne_target {α : Type} (target : Nat)
    (l : List (Option α)) : ∀ (s : Nat) (x : Nat × α), x ∈ stale_frames target s l →
      x.1 ≠ target := by
  induction l with
  | nil => intro s x hx; simp [stale_frames] at hx
  | cons a rest ih =>
    intro s x hx
    cases a with
    | none => exact ih (s + 1) x (by simpa [stale_frames] using hx)
    | some f =>
      simp only [stale_frames] at hx
      split_ifs at hx with hd
      · rcases List.mem_cons.1 hx with rfl | hx2
        · intro heq
          simp only at heq
          unfold distance at hd
          rw [MAX_TID_VALUE_eq] at heq
          simp only [MAX_TID_VALUE_eq, TWOPOW11_eq] at hd
          split_ifs at hd with hlt <;> omega
        · exact ih (s + 1) x hx2
      · exact ih (s + 1) x hx

/-- Claim C4.  For every well-formed window and every target,
`force_advance target` followed by `insert target frame` delivers the frame for
`target` exactly once: the forced advance leaves `start_sequence = target` and
delivers no frame numbered `target`, and the insert result is a delivery that
begins with `(target, frame)` and has no other frame numbered `target`; it is
neither `Duplicate` nor `OutOfWindow`. -/
theorem force_advance_then_insert {α : Type} (w : ReorderWindow α) (target : Nat) (frame : α)
    (hw : WellFormed w) :
    (force_advance w target).1.start_sequence = target ∧
    (insert (force_advance w target).1 target frame).2 ≠ InsertResult.Duplicate ∧
    (insert (force_advance w target).1 target frame).2 ≠ InsertResult.OutOfWindow ∧
    (∀ x ∈ (force_advance w target).2, x.1 ≠ target) ∧
    ∃ rest, (insert (force_advance w target).1 target frame).2 =
        InsertResult.Delivered ((target, frame) :: rest) ∧
      ∀ x ∈ rest, x.1 ≠ target := by
  obtain ⟨h1, h64, hlen, hst, hfc⟩ := hw
  have hins : (insert (force_advance w target).1 target frame).2 =
      InsertResult.Delivered ((target, frame) ::
        label_from (target + 1) (contiguous_run ((force_advance w target).1.slots.drop 1))) := by
    simp [insert, force_advance]
  refine ⟨rfl, ?_, ?_, ?_, _, hins, ?_⟩
  · rw [hins]; exact fun h => by cases h
  · rw [hins]; exact fun h => by cases h
  · exact fun x hx => stale_frames_ne_target target w.slots _ x hx
  · intro x hx heq
    have hmem : x.1 ∈ (label_from (target + 1)
        (contiguous_run ((force_advance w target).1.slots.drop 1))).map Prod.fst :=
      List.mem_map.2 ⟨x, hx, rfl⟩
    rw [map_fst_label_from] at hmem
    obtain ⟨i, hi, hxi⟩ := List.mem_map.1 hmem
    have hrun := length_contiguous_run_le ((force_advance w target).1.slots.drop 1)
    simp only [force_advance, List.length_drop, List.length_map, List.length_range] at hrun
    simp only [List.mem_range] at hi
    simp only [force_advance, List.length_map, List.length_range] at hi
    rw [MAX_TID_VALUE_eq] at hxi
    omega

theorem buffered_frames_mem {α : Type} (l : List (Option α)) :
    ∀ (s : Nat) (x : Nat × α), x ∈ buffered_frames s l ↔
      ∃ k, l[k]? = some (some x.2) ∧ x.1 = (s + k) % MAX_TID_VALUE := by
  induction l with
  | nil => intro s x; simp [buffered_frames]
  | cons a rest ih =>
    intro s x
    cases a with
    | none =>
      simp only [buffered_frames, ih]
      constructor
      · rintro ⟨k, hk, hx⟩
        exact ⟨k + 1, by simpa using hk, by rw [hx]; congr 1; omega⟩
      · rintro ⟨k, hk, hx⟩
        cases k with
        | zero => simp at hk
        | succ j => exact ⟨j, by simpa using hk, by rw [hx]; congr 1; omega⟩
    | some f =>
      simp only [buffered_frames, List.mem_cons, ih]
      constructor
      · rintro (rfl | ⟨k, hk, hx⟩)
        · exact ⟨0, by simp, by simp⟩
        · exact ⟨k + 1, by simpa using hk, by rw [hx]; congr 1; omega⟩
      · rintro ⟨k, hk, hx⟩
        cases k with
        | zero =>
          left
          simp at hk
          exact Prod.ext (by simpa using hx) hk.symm
        | succ j => exact Or.inr ⟨j, by simpa using hk, by rw [hx]; congr 1; omega⟩

theorem length_buffered_frames {α : Type} (l : List (Option α)) :
    ∀ s : Nat, (buffered_frames s l).length = occupied l := by
  induction l with
  | nil => intro s; simp [buffered_frames, occupied]
  | cons a rest ih => intro s; cases a <;> simp [buffered_frames, occupied, ih]

theorem buffered_frames_pairwise {α : Type} (s0 : Nat) (l : List (Option α)) :
    ∀ t : Nat, List.Pairwise
      (fun x y : Nat × α => ∃ i j, i < j ∧ j < t + l.length ∧
        x.1 = (s0 + i) % MAX_TID_VALUE ∧ y.1 = (s0 + j) % MAX_TID_VALUE)
      (buffered_frames (s0 + t) l) := by
  induction l with
  | nil => intro t; simp [buffered_frames]
  | cons a rest ih =>
    intro t
    have ih2 := (ih (t + 1)).imp (S := fun x y : Nat × α => ∃ i j, i < j ∧
        j < t + (a :: rest).length ∧
        x.1 = (s0 + i) % MAX_TID_VALUE ∧ y.1 = (s0 + j) % MAX_TID_VALUE)
      (fun {x y} h => by
        obtain ⟨i, j, hij, hj, hx, hy⟩ := h
        exact ⟨i, j, hij, by simp only [List.length_cons]; omega, hx, hy⟩)
    rw [← Nat.add_assoc] at ih2
    cases a with
    | none => simpa only [buffered_frames] using ih2
    | some f =>
      simp only [buffered_frames, List.pairwise_cons]
      refine ⟨?_, ih2⟩
      intro y hy
      obtain ⟨k, hk, hyk⟩ := (buffered_frames_mem rest (s0 + t + 1) y).1 hy
      have hklt : k < rest.length := by
        by_contra hge
        rw [List.getElem?_eq_none (by omega)] at hk
        cases hk
      refine ⟨t, t + 1 + k, by omega, by simp only [List.length_cons]; omega, rfl, ?_⟩
      rw [hyk]; congr 1; omega

theorem flush_all_eq_create {α : Type} (w : ReorderWindow α) (hw : WellFormed w) :
    (flush_all w).1 = create w.window_size (flush_all w).1.start_sequence := by
  obtain ⟨h1, h64, hlen, hst, hfc⟩ := hw
  simp only [flush_all, create, ← hlen]
  congr 1
  exact List.eq_replicate_iff.2 ⟨by simp, by simp⟩

/-- Claim C5.  `flush_all` on a well-formed window delivers exactly the buffered
frames (slot `k` holds `f` iff `(start_sequence + k, f)` is delivered), as many
as there are occupied slots, in strictly increasing distance from
`start_sequence`; afterwards every slot is empty, `full_count = 0`, the window
equals a freshly created one of the same size at the post-flush
`start_sequence`, and every insert or list of inserts behaves the same on
both. -/
theorem flush_all_delivers_buffered {α : Type} (w : ReorderWindow α) (hw : WellFormed w) :
    (∀ k f, w.slots[k]? = some (some f) ↔
      k < w.window_size ∧ ((w.start_sequence + k) % MAX_TID_VALUE, f) ∈ (flush_all w).2) ∧
    (∀ x ∈ (flush_all w).2, ∃ k, k < w.window_size ∧
      x.1 = (w.start_sequence + k) % MAX_TID_VALUE ∧ w.slots[k]? = some (some x.2)) ∧
    (flush_all w).2.length = occupied w.slots ∧
    List.Pairwise (fun x y : Nat × α =>
      distance x.1 w.start_sequence < distance y.1 w.start_sequence) (flush_all w).2 ∧
    (∀ s ∈ (flush_all w).1.slots, s = none) ∧
    (flush_all w).1.full_count = 0 ∧
    (flush_all w).1 = create w.window_size (flush_all w).1.start_sequence ∧
    (∀ seq frame, insert (flush_all w).1 seq frame =
      insert (create w.window_size (flush_all w).1.start_sequence) seq frame) ∧
    (∀ ins, insert_all (flush_all w).1 ins =
      insert_all (create w.window_size (flush_all w).1.start_sequence) ins) := by
  have heq := flush_all_eq_create w hw
  obtain ⟨h1, h64, hlen, hst, hfc⟩ := hw
  have hslot : ∀ k (f : α), w.slots[k]? = some (some f) → k < w.window_size := by
    intro k f hk
    by_contra hge
    rw [List.getElem?_eq_none (by omega)] at hk
    cases hk
  refine ⟨?_, ?_, ?_, ?_, ?_, ?_, heq, ?_, ?_⟩
  · intro k f
    constructor
    · intro hk
      exact ⟨hslot k f hk, (buffered_frames_mem w.slots w.start_sequence _).2 ⟨k, hk, rfl⟩⟩
    · rintro ⟨hk, hmem⟩
      obtain ⟨j, hj, hjk⟩ := (buffered_frames_mem w.slots w.start_sequence _).1 hmem
      have hjlt := hslot j f hj
      simp only [MAX_TID_VALUE_eq] at hjk
      have : k = j := by omega
      rw [this]; exact hj
  · intro x hx
    obtain ⟨k, hk, hxk⟩ := (buffered_frames_mem w.slots w.start_sequence x).1 hx
    exact ⟨k, hslot k x.2 hk, hxk, hk⟩
  · exact length_buffered_frames w.slots w.start_sequence
  · have hp := buffered_frames_pairwise (α := α) w.start_sequence w.slots 0
    simp only [Nat.add_zero, Nat.zero_add] at hp
    refine hp.imp ?_
    intro x y h
    obtain ⟨i, j, hij, hj, hx, hy⟩ := h
    rw [hx, hy]
    rw [MAX_TID_VALUE_eq] at hst ⊢
    have c1 := distance_cases ((w.start_sequence + i) % 4096) w.start_sequence
      (Nat.mod_lt _ (by decide)) hst
    have c2 := distance_cases ((w.start_sequence + j) % 4096) w.start_sequence
      (Nat.mod_lt _ (by decide)) hst
    omega
  · intro s hs
    simp only [flush_all, List.mem_map] at hs
    obtain ⟨_, _, rfl⟩ := hs
    rfl
  · rfl
  · intro seq frame; rw [← heq]
  · intro ins; rw [← heq]

/-- Claim C6 as stated fails: with size 4 and start 10, after the inserts of 12
and 11 the insert of 10 cannot deliver 13, which has not been received yet; the
deliveries are not `[], [], [10,11,12,13], []`. -/
theorem scenario_cascade_stops_at_twelve :
    (insert_all (create 4 10 : ReorderWindow Nat)
        [(12, 112), (11, 111), (10, 110), (13, 113)]).2.map delivered_seqs ≠
      [[], [], [10, 11, 12, 13], []] := by
  decide

/-- Claim C6, amended.  With `window_size = 4` and `start_sequence = 10`, the
inserts 12, 11, 10, 13 give: buffered, buffered, the delivery of 10, 11, 12 in
that order, and then the delivery of 13; the window ends empty at left
edge 14. -/
theorem scenario_window_four {α : Type} (f12 f11 f10 f13 : α) :
    insert_all (create 4 10 : ReorderWindow α) [(12, f12), (11, f11), (10, f10), (13, f13)] =
      (create 4 14,
       [InsertResult.Buffered, InsertResult.Buffered,
        InsertResult.Delivered [(10, f10), (11, f11), (12, f12)],
        InsertResult.Delivered [(13, f13)]]) := by
  have d12 : distance 12 10 = 2 := by decide
  have d11 : distance 11 10 = 1 := by decide
  simp [insert_all, insert, create, d12, d11, contiguous_run, label_from, occupied,
    MAX_TID_VALUE_eq, List.replicate]

theorem buffered_frames_replicate_none {α : Type} (n : Nat) :
    ∀ s : Nat, buffered_frames s (List.replicate n (none : Option α)) = [] := by
  induction n with
  | zero => intro s; simp [buffered_frames]
  | succ m ih => intro s; simp [List.replicate_succ, buffered_frames, ih]

theorem distance_to_boundary (s i j : Nat) (hi : i < 2048) (hj : j < 2048) :
    distance (s + i) ((s + j) % MAX_TID_VALUE) = (i : Int) - (j : Int) := by
  unfold distance
  simp only [MAX_TID_VALUE_eq, TWOPOW11_eq]
  split_ifs <;> push_cast <;> omega

theorem stale_frames_none_behind {α : Type} (target : Nat) (l : List (Option α)) :
    ∀ s : Nat, (∀ k, k < l.length → 0 ≤ distance (s + k) target) →
      stale_frames target s l = [] := by
  induction l with
  | nil => intro s _; rfl
  | cons x rest ih =>
    intro s h
    have hrest : stale_frames target (s + 1) rest = [] := by
      apply ih
      intro k hk
      have := h (k + 1) (by simp only [List.length_cons]; omega)
      rwa [Nat.add_assoc, Nat.add_comm 1 k]
    cases x with
    | none => simp only [stale_frames, hrest]
    | some f =>
      have h0 := h 0 (by simp)
      simp only [Nat.add_zero] at h0
      simp only [stale_frames, hrest, if_neg (not_lt.2 h0)]

theorem stale_frames_upto {α : Type} (target : Nat) (l : List (Option α)) :
    ∀ (s c : Nat), (∀ k, k < l.length → distance (s + k) target = (k : Int) - (c : Int)) →
      stale_frames target s l = buffered_frames s (l.take c) := by
  induction l with
  | nil => intro s c _; simp [stale_frames, buffered_frames]
  | cons x rest ih =>
    intro s c h
    cases c with
    | zero =>
      rw [List.take_zero]
      simp only [buffered_frames]
      apply stale_frames_none_behind
      intro k hk
      rw [h k hk]
      simp
    | succ c =>
      have hrest : stale_frames target (s + 1) rest = buffered_frames (s + 1) (rest.take c) := by
        apply ih
        intro k hk
        have := h (k + 1) (by simp only [List.length_cons]; omega)
        rw [Nat.add_assoc, Nat.add_comm 1 k, this]
        push_cast
        omega
      have h0 := h 0 (by simp)
      simp only [Nat.add_zero] at h0
      have hneg : distance s target < 0 := by
        rw [h0]; push_cast; omega
      cases x with
      | none => simp only [stale_frames, List.take_succ_cons, buffered_frames, hrest]
      | some f =>
        simp only [stale_frames, List.take_succ_cons, buffered_frames, hrest, if_pos hneg]

theorem take_contiguous_run {α : Type} (l : List (Option α)) :
    l.take (contiguous_run l).length = (contiguous_run l).map some := by
  induction l with
  | nil => simp [contiguous_run]
  | cons x rest ih =>
    cases x with
    | none => simp [contiguous_run]
    | some f => simp [contiguous_run, ih]

theorem buffered_frames_map_some {α : Type} (run : List α) :
    ∀ s : Nat, buffered_frames s (run.map some) = label_from s run := by
  induction run with
  | nil => intro s; simp [buffered_frames, label_from]
  | cons f fs ih => intro s; simp [buffered_frames, label_from, ih]

theorem timeout_delivers_contiguous_run {α : Type} (w : ReorderWindow α) (hw : WellFormed w)
    (hmiss : w.slots[0]? = some none) :
    (force_advance w (timeout_target w)).2 =
      label_from (w.start_sequence + 1) (contiguous_run (w.slots.drop 1)) := by
  obtain ⟨h1, h64, hlen, hst, hfc⟩ := hw
  have hrun := length_contiguous_run_le (w.slots.drop 1)
  simp only [List.length_drop] at hrun
  cases hs : w.slots with
  | nil => rw [hs] at hmiss; simp at hmiss
  | cons x rest =>
    rw [hs] at hmiss hlen hrun
    simp only [List.getElem?_cons_zero, Option.some.injEq] at hmiss
    subst hmiss
    simp only [List.length_cons, Nat.add_sub_cancel, List.drop_succ_cons, List.drop_zero]
      at hlen hrun
    simp only [force_advance, timeout_target, hs, List.drop_succ_cons, List.drop_zero,
      stale_frames]
    rw [stale_frames_upto _ rest (w.start_sequence + 1) (contiguous_run rest).length,
      take_contiguous_run, buffered_frames_map_some]
    intro k hk
    rw [Nat.add_assoc w.start_sequence 1 k, Nat.add_assoc w.start_sequence 1 _,
      distance_to_boundary w.start_sequence (1 + k) (1 + (contiguous_run rest).length)
        (by omega) (by omega)]
    push_cast
    omega

theorem remove_subset {α : Type} (tbl : SessionTable α) (peer tid : Nat) :
    ∀ e ∈ (remove tbl peer tid).1, e ∈ tbl := by
  intro e he
  unfold remove at he
  split at he
  · exact he
  · exact (List.mem_filter.1 he).1

theorem blockack_winsize_le (p : Nat) (hp : p < 65536) : blockack_winsize p ≤ 1023 := by
  unfold blockack_winsize
  simp only [BLOCKACKPARAM_WINSIZE_MASK, BLOCKACKPARAM_WINSIZE_POS, Nat.shiftRight_eq_div_pow]
  have : p &&& 0xffc0 ≤ p := Nat.and_le_left
  omega

/-- Claim C10.  For every 16-bit BlockAckParamSet `p` the WinSize field is at
most 1023; when it lies outside [1,64] the ADDBA request is rejected as
`InvalidWindowSize` and the table is unchanged (no session is created); when it
lies inside, the session is created with a fresh window of exactly that size;
so if every session of the table has a window size in [1,64], so has every
session afterwards. -/
theorem addba_window_size_in_range {α : Type} (tbl : SessionTable α) (peer p ssn : Nat)
    (hp : p < 65536)
    (htbl : ∀ e ∈ tbl, 1 ≤ e.2.window.window_size ∧ e.2.window.window_size ≤ 64) :
    blockack_winsize p ≤ 1023 ∧
    (¬ (1 ≤ blockack_winsize p ∧ blockack_winsize p ≤ 64) →
      addba_from_param_set tbl peer p ssn = (tbl, [], AddbaDecision.InvalidWindowSize)) ∧
    ((1 ≤ blockack_winsize p ∧ blockack_winsize p ≤ 64) →
      (addba_from_param_set tbl peer p ssn).2.2 = AddbaDecision.Accepted (blockack_winsize p) ∧
      ∃ s, lookup (addba_from_param_set tbl peer p ssn).1 peer (blockack_tid p) = some s ∧
        s.window = create (blockack_winsize p) ssn) ∧
    (∀ e ∈ (addba_from_param_set tbl peer p ssn).1,
      1 ≤ e.2.window.window_size ∧ e.2.window.window_size ≤ 64) := by
  refine ⟨blockack_winsize_le p hp, ?_, ?_, ?_⟩
  · intro h
    simp only [addba_from_param_set, on_addba_request, if_neg h]
  · intro h
    simp only [addba_from_param_set, on_addba_request, if_pos h, create_or_replace, lookup,
      if_true, true_and]
    exact ⟨_, rfl, rfl⟩
  · intro e he
    by_cases h : 1 ≤ blockack_winsize p ∧ blockack_winsize p ≤ 64
    · simp only [addba_from_param_set, on_addba_request, if_pos h, create_or_replace,
        List.mem_cons] at he
      rcases he with rfl | he
      · exact h
      · exact htbl e (remove_subset tbl peer _ e he)
    · simp only [addba_from_param_set, on_addba_request, if_neg h] at he
      exact htbl e he

/-- Claim C1 at the window of size 4 holding 11 and 12. -/
theorem insert_in_order_witness :
    WellFormed example_window ∧
    ∃ (frames : List (Nat × Nat)) (run : List Nat),
      (insert example_window example_window.start_sequence 110).2 =
        InsertResult.Delivered frames ∧
      frames.length = run.length + 1 ∧
      frames[0]? = some (example_window.start_sequence, 110) ∧
      run.length + 1 ≤ example_window.window_size ∧
      (∀ i f, run[i]? = some f →
        example_window.slots[i + 1]? = some (some f) ∧
        frames[i + 1]? = some ((example_window.start_sequence + (i + 1)) % MAX_TID_VALUE, f)) ∧
      (example_window.slots[run.length + 1]? = none ∨
        example_window.slots[run.length + 1]? = some none) ∧
      (insert example_window example_window.start_sequence 110).1.start_sequence =
        (example_window.start_sequence + (run.length + 1)) % MAX_TID_VALUE :=
  ⟨by decide, insert_in_order.1 Nat example_window 110 (by decide)⟩

/-- Claim C2 (amended) at the window of size 4 holding 11 and 12. -/
theorem delivered_in_modular_order_witness :
    example_window.start_sequence < MAX_TID_VALUE ∧
    (∀ i x y, (delivered_by example_window [(13, 113), (10, 110)])[i]? = some x →
      (delivered_by example_window [(13, 113), (10, 110)])[i + 1]? = some y →
      y = (x + 1) % MAX_TID_VALUE ∧ distance y x = 1) ∧
    ((delivered_by example_window [(13, 113), (10, 110)]).length ≤ MAX_TID_VALUE →
      (delivered_by example_window [(13, 113), (10, 110)]).Nodup) :=
  ⟨by decide, delivered_in_modular_order example_window [(13, 113), (10, 110)] (by decide)⟩

/-- Claim C3 at the window of size 4 with left edge 10 and the number 14. -/
theorem insert_out_of_window_witness :
    WellFormed example_window ∧
    (example_window.window_size : Int) - 1 < distance 14 example_window.start_sequence ∧
    insert example_window 14 114 = (example_window, InsertResult.OutOfWindow) ∧
    Reachable (create 4 10 : ReorderWindow Nat) ∧
    occupied (create 4 10 : ReorderWindow Nat).slots ≤ (create 4 10 : ReorderWindow Nat).window_size :=
  ⟨by decide, by decide,
   (insert_out_of_window.1 Nat example_window 14 114 (by decide) (by decide)).1,
   Reachable.fresh 4 10 (by decide) (by decide),
   (insert_out_of_window.2 Nat (create 4 10)
     (Reachable.fresh 4 10 (by decide) (by decide))).1⟩

/-- Claim C4 at the window of size 4 holding 11 and 12, target 12. -/
theorem force_advance_then_insert_witness :
    WellFormed example_window ∧
    (force_advance example_window 12).1.start_sequence = 12 ∧
    (insert (force_advance example_window 12).1 12 212).2 ≠ InsertResult.Duplicate ∧
    (insert (force_advance example_window 12).1 12 212).2 ≠ InsertResult.OutOfWindow ∧
    (∀ x ∈ (force_advance example_window 12).2, x.1 ≠ 12) ∧
    ∃ rest, (insert (force_advance example_window 12).1 12 212).2 =
        InsertResult.Delivered ((12, 212) :: rest) ∧
      ∀ x ∈ rest, x.1 ≠ 12 :=
  ⟨by decide, force_advance_then_insert example_window 12 212 (by decide)⟩

/-- Claim C5 at the window of size 4 holding 11 and 12. -/
theorem flush_all_delivers_buffered_witness :
    WellFormed example_window ∧
    (flush_all example_window).2 = [(11, 111), (12, 112)] ∧
    (flush_all example_window).1 = create 4 10 ∧
    (∀ k f, example_window.slots[k]? = some (some f) ↔
      k < example_window.window_size ∧
      ((example_window.start_sequence + k) % MAX_TID_VALUE, f) ∈ (flush_all example_window).2) :=
  ⟨by decide, by decide, by decide, (flush_all_delivers_buffered example_window (by decide)).1⟩

/-- Claim C8 across the wrap, at `a = 0`, `b = 4095`. -/
theorem sequence_arithmetic_witness :
    0 < MAX_TID_VALUE ∧ 4095 < MAX_TID_VALUE ∧
    (-(TWOPOW11 : Int) ≤ distance 0 4095 ∧ distance 0 4095 ≤ (TWOPOW11 : Int) - 1) ∧
    distance 0 4095 ≡ ((0 : Nat) : Int) - ((4095 : Nat) : Int) [ZMOD (MAX_TID_VALUE : Int)] ∧
    (distance 0 4095 = 0 ↔ 0 = 4095) ∧
    ∀ size : Nat, 1 ≤ size → size ≤ 64 →
      ((is_in_window 0 4095 size = true ↔ ∃ k, k < size ∧ 0 = (4095 + k) % MAX_TID_VALUE) ∧
       ∀ i j, i < size → j < size →
        (4095 + i) % MAX_TID_VALUE = (4095 + j) % MAX_TID_VALUE → i = j) :=
  ⟨by decide, by decide, sequence_arithmetic 0 4095 (by decide) (by decide)⟩

/-- Claim C10 at the parameter set 4099 (WinSize 64). -/
theorem addba_window_size_in_range_witness :
    (4099 < 65536) ∧
    (∀ e ∈ example_table, 1 ≤ e.2.window.window_size ∧ e.2.window.window_size ≤ 64) ∧
    blockack_winsize 4099 = 64 ∧
    (∀ e ∈ (addba_from_param_set example_table 7 4099 0).1,
      1 ≤ e.2.window.window_size ∧ e.2.window.window_size ≤ 64) :=
  ⟨by decide, by decide, by decide,
   (addba_window_size_in_range example_table 7 4099 0 (by decide) (by decide)).2.2.2⟩

theorem shiftRight_and (a b i : Nat) : (a &&& b) >>> i = a >>> i &&& b >>> i := by
  apply Nat.eq_of_testBit_eq
  intro j
  simp only [Nat.testBit_shiftRight, Nat.testBit_and]

theorem blockack_amsdu_eq_mod (p : Nat) : blockack_amsdu p = p % 2 := by
  unfold blockack_amsdu BLOCKACKPARAM_AMSDU_SUPP_MASK
  exact Nat.and_pow_two_sub_one_eq_mod p 1

theorem blockack_tid_eq (p : Nat) : blockack_tid p = p / 4 % 16 := by
  unfold blockack_tid BLOCKACKPARAM_TID_MASK BLOCKACKPARAM_TID_POS
  rw [shiftRight_and]
  have h : (0x3C : Nat) >>> 2 = 2 ^ 4 - 1 := by decide
  rw [h, Nat.and_pow_two_sub_one_eq_mod, Nat.shiftRight_eq_div_pow]

theorem blockack_winsize_eq (p : Nat) : blockack_winsize p = p / 64 % 1024 := by
  unfold blockack_winsize BLOCKACKPARAM_WINSIZE_MASK BLOCKACKPARAM_WINSIZE_POS
  rw [shiftRight_and]
  have h : (0xffc0 : Nat) >>> 6 = 2 ^ 10 - 1 := by decide
  rw [h, Nat.and_pow_two_sub_one_eq_mod, Nat.shiftRight_eq_div_pow]

theorem blockack_param_set_eq_add (amsdu policy tid winsize : Nat) (ha : amsdu ≤ 1)
    (hp : policy = 0 ∨ policy = IMMEDIATE_BLOCK_ACK) (ht : tid ≤ 15) :
    blockack_param_set amsdu policy tid winsize = amsdu + policy + 4 * tid + 64 * winsize := by
  unfold blockack_param_set BLOCKACKPARAM_TID_POS BLOCKACKPARAM_WINSIZE_POS
  have h1 : amsdu ||| policy = amsdu + policy := by
    have : amsdu = 0 ∨ amsdu = 1 := by omega
    rcases this with rfl | rfl <;> rcases hp with rfl | rfl <;> decide
  have hlow : amsdu + policy < 2 ^ 2 := by
    rcases hp with rfl | rfl <;> simp [IMMEDIATE_BLOCK_ACK] <;> omega
  have h2 : (amsdu + policy) ||| tid <<< 2 = 4 * tid + (amsdu + policy) := by
    rw [Nat.shiftLeft_eq, Nat.mul_comm tid, Nat.lor_comm]
    exact (Nat.mul_add_lt_is_or hlow tid).symm
  have hlow2 : 4 * tid + (amsdu + policy) < 2 ^ 6 := by omega
  rw [h1, h2, Nat.shiftLeft_eq, Nat.mul_comm winsize, Nat.lor_comm,
    ← Nat.mul_add_lt_is_or hlow2 winsize]
  omega

/-- Claim C11.  The fields of a BlockAckParamSet do not overlap and decode
losslessly: for `amsdu` in {0,1}, policy bit 0 or `IMMEDIATE_BLOCK_ACK`, `tid` in
[0,15] and `winsize` in [0,1023], the word
`amsdu | policy | (tid << BLOCKACKPARAM_TID_POS) | (winsize << BLOCKACKPARAM_WINSIZE_POS)`
fits 16 bits and gives back `amsdu` under `BLOCKACKPARAM_AMSDU_SUPP_MASK`, `tid`
under `BLOCKACKPARAM_TID_MASK` and `winsize` under `BLOCKACKPARAM_WINSIZE_MASK`;
for every 16-bit word the decoded TID is at most 15; the three masks and the
policy bit are pairwise disjoint. -/
theorem blockack_fields_roundtrip :
    (∀ amsdu policy tid winsize : Nat, amsdu ≤ 1 →
      (policy = 0 ∨ policy = IMMEDIATE_BLOCK_ACK) → tid ≤ 15 → winsize ≤ 1023 →
      blockack_param_set amsdu policy tid winsize < 2 ^ 16 ∧
      blockack_param_set amsdu policy tid winsize &&& BLOCKACKPARAM_AMSDU_SUPP_MASK = amsdu ∧
      (blockack_param_set amsdu policy tid winsize &&& BLOCKACKPARAM_TID_MASK) >>>
        BLOCKACKPARAM_TID_POS = tid ∧
      (blockack_param_set amsdu policy tid winsize &&& BLOCKACKPARAM_WINSIZE_MASK) >>>
        BLOCKACKPARAM_WINSIZE_POS = winsize) ∧
    (∀ p : Nat, p < 2 ^ 16 → (p &&& BLOCKACKPARAM_TID_MASK) >>> BLOCKACKPARAM_TID_POS ≤ 15) ∧
    BLOCKACKPARAM_AMSDU_SUPP_MASK &&& BLOCKACKPARAM_TID_MASK = 0 ∧
    BLOCKACKPARAM_AMSDU_SUPP_MASK &&& BLOCKACKPARAM_WINSIZE_MASK = 0 ∧
    BLOCKACKPARAM_TID_MASK &&& BLOCKACKPARAM_WINSIZE_MASK = 0 ∧
    IMMEDIATE_BLOCK_ACK &&& (BLOCKACKPARAM_AMSDU_SUPP_MASK ||| BLOCKACKPARAM_TID_MASK |||
      BLOCKACKPARAM_WINSIZE_MASK) = 0 := by
  refine ⟨?_, ?_, by decide, by decide, by decide, by decide⟩
  · intro amsdu policy tid winsize ha hp ht hw
    have hsum := blockack_param_set_eq_add amsdu policy tid winsize ha hp ht
    have h1 := blockack_amsdu_eq_mod (blockack_param_set amsdu policy tid winsize)
    have h2 := blockack_tid_eq (blockack_param_set amsdu policy tid winsize)
    have h3 := blockack_winsize_eq (blockack_param_set amsdu policy tid winsize)
    unfold blockack_amsdu at h1
    unfold blockack_tid at h2
    unfold blockack_winsize at h3
    rw [h1, h2, h3, hsum]
    have hp2 : policy = 0 ∨ policy = 2 := hp
    refine ⟨?_, ?_, ?_, ?_⟩ <;> omega
  · intro p _
    have h2 := blockack_tid_eq p
    unfold blockack_tid at h2
    rw [h2]
    omega

theorem delba_mask_testBit (i : Nat) :
    ((0xFFFFFFFF : Nat) ^^^ (1 <<< 11)).testBit i = (decide (i < 32) && !decide (i = 11)) := by
  have h1 : (0xFFFFFFFF : Nat) = 2 ^ 32 - 1 := by decide
  rw [h1, Nat.one_shiftLeft, Nat.testBit_xor, Nat.testBit_two_pow_sub_one, Nat.testBit_two_pow]
  by_cases h : i = 11
  · subst h; decide
  · have : ¬ (11 = i) := fun h2 => h h2.symm
    simp [h, this]

theorem DELBA_INITIATOR_testBit (p i : Nat) :
    (DELBA_INITIATOR p).testBit i = (decide (i < 16) && (p.testBit i || decide (i = 11))) := by
  unfold DELBA_INITIATOR
  rw [Nat.testBit_mod_two_pow, Nat.testBit_or, Nat.one_shiftLeft, Nat.testBit_two_pow]
  by_cases h : i = 11
  · subst h; simp
  · have : ¬ (11 = i) := fun h2 => h h2.symm
    simp [h, this]

theorem DELBA_RECIPIENT_testBit (p i : Nat) :
    (DELBA_RECIPIENT p).testBit i = (decide (i < 16) && (p.testBit i && !decide (i = 11))) := by
  unfold DELBA_RECIPIENT
  rw [Nat.testBit_mod_two_pow, Nat.testBit_and, delba_mask_testBit]
  by_cases h : i < 16
  · have : i < 32 := by omega
    simp [h, this]
  · simp [h]

theorem testBit_of_lt_16 (p i : Nat) (hp : p < 2 ^ 16) (hi : ¬ i < 16) : p.testBit i = false := by
  apply Nat.testBit_lt_two_pow
  calc p < 2 ^ 16 := hp
    _ ≤ 2 ^ i := Nat.pow_le_pow_right (by decide) (by omega)

/-- Claim C12.  For every 16-bit DelBA parameter set `p`, `DELBA_INITIATOR`
sets bit `DELBA_INITIATOR_POS` (11) and `DELBA_RECIPIENT` clears it, every other
bit is unchanged, so the TID `p >> DELBA_TID_POS` is the same before and after;
each macro is idempotent, and after applying one and then the other the word
is what the last one alone gives. -/
theorem delba_initiator_bit (p : Nat) (hp : p < 2 ^ 16) :
    (DELBA_INITIATOR p).testBit DELBA_INITIATOR_POS = true ∧
    (DELBA_RECIPIENT p).testBit DELBA_INITIATOR_POS = false ∧
    (∀ i, i ≠ DELBA_INITIATOR_POS →
      (DELBA_INITIATOR p).testBit i = p.testBit i ∧
      (DELBA_RECIPIENT p).testBit i = p.testBit i) ∧
    DELBA_INITIATOR p >>> DELBA_TID_POS = p >>> DELBA_TID_POS ∧
    DELBA_RECIPIENT p >>> DELBA_TID_POS = p >>> DELBA_TID_POS ∧
    DELBA_INITIATOR (DELBA_INITIATOR p) = DELBA_INITIATOR p ∧
    DELBA_RECIPIENT (DELBA_RECIPIENT p) = DELBA_RECIPIENT p ∧
    DELBA_INITIATOR (DELBA_RECIPIENT p) = DELBA_INITIATOR p ∧
    DELBA_RECIPIENT (DELBA_INITIATOR p) = DELBA_RECIPIENT p ∧
    DELBA_INITIATOR p < 2 ^ 16 ∧ DELBA_RECIPIENT p < 2 ^ 16 := by
  have hbit : ∀ i, ¬ i < 16 → p.testBit i = false := fun i hi => testBit_of_lt_16 p i hp hi
  refine ⟨?_, ?_, ?_, ?_, ?_, ?_, ?_, ?_, ?_, ?_, ?_⟩
  · rw [DELBA_INITIATOR_testBit]; simp [DELBA_INITIATOR_POS]
  · rw [DELBA_RECIPIENT_testBit]; simp [DELBA_INITIATOR_POS]
  · intro i hi
    simp only [DELBA_INITIATOR_POS] at hi
    rw [DELBA_INITIATOR_testBit, DELBA_RECIPIENT_testBit]
    by_cases h16 : i < 16
    · simp [h16, hi]
    · simp [h16, hbit i h16]
  · apply Nat.eq_of_testBit_eq
    intro j
    simp only [Nat.testBit_shiftRight, DELBA_INITIATOR_testBit, DELBA_TID_POS]
    have : ¬ (12 + j = 11) := by omega
    by_cases h16 : 12 + j < 16
    · simp [h16, this]
    · simp [h16, hbit _ h16]
  · apply Nat.eq_of_testBit_eq
    intro j
    simp only [Nat.testBit_shiftRight, DELBA_RECIPIENT_testBit, DELBA_TID_POS]
    have : ¬ (12 + j = 11) := by omega
    by_cases h16 : 12 + j < 16
    · simp [h16, this]
    · simp [h16, hbit _ h16]
  · apply Nat.eq_of_testBit_eq
    intro j
    simp only [DELBA_INITIATOR_testBit]
    cases decide (j < 16) <;> cases p.testBit j <;> cases decide (j = 11) <;> rfl
  · apply Nat.eq_of_testBit_eq
    intro j
    simp only [DELBA_RECIPIENT_testBit]
    cases decide (j < 16) <;> cases p.testBit j <;> cases decide (j = 11) <;> rfl
  · apply Nat.eq_of_testBit_eq
    intro j
    simp only [DELBA_RECIPIENT_testBit, DELBA_INITIATOR_testBit]
    cases decide (j < 16) <;> cases p.testBit j <;> cases decide (j = 11) <;> rfl
  · apply Nat.eq_of_testBit_eq
    intro j
    simp only [DELBA_RECIPIENT_testBit, DELBA_INITIATOR_testBit]
    cases decide (j < 16) <;> cases p.testBit j <;> cases decide (j = 11) <;> rfl
  · exact Nat.mod_lt _ (by decide)
  · exact Nat.mod_lt _ (by decide)

/-- Claim C11 at `amsdu = 1`, immediate policy, `tid = 7`, `winsize = 64`. -/
theorem blockack_fields_roundtrip_witness :
    (1 ≤ 1) ∧ (IMMEDIATE_BLOCK_ACK = 0 ∨ IMMEDIATE_BLOCK_ACK = IMMEDIATE_BLOCK_ACK) ∧
    (7 ≤ 15) ∧ (64 ≤ 1023) ∧
    blockack_param_set 1 IMMEDIATE_BLOCK_ACK 7 64 < 2 ^ 16 ∧
    blockack_param_set 1 IMMEDIATE_BLOCK_ACK 7 64 &&& BLOCKACKPARAM_AMSDU_SUPP_MASK = 1 ∧
    (blockack_param_set 1 IMMEDIATE_BLOCK_ACK 7 64 &&& BLOCKACKPARAM_TID_MASK) >>>
      BLOCKACKPARAM_TID_POS = 7 ∧
    (blockack_param_set 1 IMMEDIATE_BLOCK_ACK 7 64 &&& BLOCKACKPARAM_WINSIZE_MASK) >>>
      BLOCKACKPARAM_WINSIZE_POS = 64 :=
  ⟨by decide, Or.inr rfl, by decide, by decide,
   blockack_fields_roundtrip.1 1 IMMEDIATE_BLOCK_ACK 7 64 (by decide) (Or.inr rfl) (by decide)
     (by decide)⟩

/-- Claim C12 at the parameter set `0x3000` (TID 3, initiator bit clear). -/
theorem delba_initiator_bit_witness :
    (0x3000 < 2 ^ 16) ∧
    (DELBA_INITIATOR 0x3000).testBit DELBA_INITIATOR_POS = true ∧
    (DELBA_RECIPIENT 0x3000).testBit DELBA_INITIATOR_POS = false :=
  ⟨by decide, (delba_initiator_bit 0x3000 (by decide)).1,
   (delba_initiator_bit 0x3000 (by decide)).2.1⟩

end RxReorder

namespace MoalWext

theorem memcmp_loop_eq_zero (cs ct : List Nat) (count : Nat) :
    ∀ k, memcmp_loop cs ct count k = 0 ↔
      ∀ j, j < count → cs.getD (k + j) 0 = ct.getD (k + j) 0 := by
  induction count with
  | zero => intro k; simp [memcmp_loop]
  | succ n ih =>
    intro k
    simp only [memcmp_loop]
    split_ifs with h
    · constructor
      · intro h0; exact absurd h0 h
      · intro hall
        have := hall 0 (by omega)
        simp only [Nat.add_zero] at this
        exact absurd (by rw [this]; omega) h
    · rw [ih (k + 1)]
      have hk : cs.getD k 0 = ct.getD k 0 := by
        have : (cs.getD k 0 : Int) - (ct.getD k 0 : Int) = 0 := not_not.1 h
        omega
      constructor
      · intro hall j hj
        cases j with
        | zero => simpa using hk
        | succ i =>
          have := hall i (by omega)
          rw [Nat.add_assoc, Nat.add_comm 1 i] at this
          exact this
      · intro hall j hj
        have := hall (j + 1) (by omega)
        rw [Nat.add_assoc, Nat.add_comm 1 j]
        exact this

/-- Claim C13.  `woal_ssid_cmp` returns 0 iff both pointers are non-null, the
two `ssid_len` are equal and the first `ssid_len` bytes of the buffers are equal;
it returns -1 when a pointer is null or the lengths differ, and a non-zero
value when the lengths agree and some byte among the first `ssid_len` differs;
an SSID compared with itself gives 0, and so do two SSIDs of length 0. -/
theorem woal_ssid_cmp_spec (ssid1 ssid2 : Option mlan_802_11_ssid) :
    (woal_ssid_cmp ssid1 ssid2 = 0 ↔
      ∃ s1 s2, ssid1 = some s1 ∧ ssid2 = some s2 ∧ s1.ssid_len = s2.ssid_len ∧
        ∀ k, k < s1.ssid_len → s1.ssid.getD k 0 = s2.ssid.getD k 0) ∧
    (ssid1 = none ∨ ssid2 = none → woal_ssid_cmp ssid1 ssid2 = -1) ∧
    (∀ s1 s2, ssid1 = some s1 → ssid2 = some s2 → s1.ssid_len ≠ s2.ssid_len →
      woal_ssid_cmp ssid1 ssid2 = -1) ∧
    (∀ s1 s2, ssid1 = some s1 → ssid2 = some s2 → s1.ssid_len = s2.ssid_len →
      (∃ k, k < s1.ssid_len ∧ s1.ssid.getD k 0 ≠ s2.ssid.getD k 0) →
      woal_ssid_cmp ssid1 ssid2 ≠ 0) ∧
    (∀ s, woal_ssid_cmp (some s) (some s) = 0) ∧
    (∀ s1 s2 : mlan_802_11_ssid, s1.ssid_len = 0 → s2.ssid_len = 0 →
      woal_ssid_cmp (some s1) (some s2) = 0) := by
  have hsome : ∀ s1 s2 : mlan_802_11_ssid, s1.ssid_len = s2.ssid_len →
      (woal_ssid_cmp (some s1) (some s2) = 0 ↔
        ∀ k, k < s1.ssid_len → s1.ssid.getD k 0 = s2.ssid.getD k 0) := by
    intro s1 s2 hlen
    simp only [woal_ssid_cmp, hlen, ne_eq, not_true_eq_false, if_false, memcmp]
    rw [memcmp_loop_eq_zero]
    simp only [Nat.zero_add, hlen]
  refine ⟨?_, ?_, ?_, ?_, ?_, ?_⟩
  · constructor
    · intro h
      cases ssid1 with
      | none => simp [woal_ssid_cmp] at h
      | some s1 =>
        cases ssid2 with
        | none => simp [woal_ssid_cmp] at h
        | some s2 =>
          by_cases hlen : s1.ssid_len = s2.ssid_len
          · exact ⟨s1, s2, rfl, rfl, hlen, (hsome s1 s2 hlen).1 h⟩
          · simp [woal_ssid_cmp, hlen] at h
    · rintro ⟨s1, s2, rfl, rfl, hlen, hall⟩
      exact (hsome s1 s2 hlen).2 hall
  · rintro (rfl | rfl)
    · cases ssid2 <;> rfl
    · cases ssid1 <;> rfl
  · rintro s1 s2 rfl rfl hne
    simp [woal_ssid_cmp, hne]
  · rintro s1 s2 rfl rfl hlen ⟨k, hk, hne⟩ h0
    exact hne ((hsome s1 s2 hlen).1 h0 k hk)
  · intro s
    exact (hsome s s rfl).2 (fun _ _ => rfl)
  · intro s1 s2 h1 h2
    exact (hsome s1 s2 (by rw [h1, h2])).2 (fun k hk => by omega)

theorem ssid_valid_loop_spec (isprint : Nat → Bool) (ssid : List Nat) (count : Nat) :
    ∀ k, ssid_valid_loop isprint ssid count k = BOOLEAN.MTRUE ↔
      ∀ j, j < count → isprint (ssid.getD (k + j) 0) = true := by
  induction count with
  | zero => intro k; simp [ssid_valid_loop]
  | succ n ih =>
    intro k
    simp only [ssid_valid_loop]
    cases hp : isprint (ssid.getD k 0) with
    | false =>
      simp only [Bool.not_false, if_true]
      constructor
      · intro h; cases h
      · intro hall
        have := hall 0 (by omega)
        simp only [Nat.add_zero, hp] at this
        cases this
    | true =>
      simp only [Bool.not_true, Bool.false_eq_true, if_false]
      rw [ih (k + 1)]
      constructor
      · intro hall j hj
        cases j with
        | zero => simpa using hp
        | succ i =>
          have := hall i (by omega)
          rw [Nat.add_assoc, Nat.add_comm 1 i] at this
          exact this
      · intro hall j hj
        have := hall (j + 1) (by omega)
        rw [Nat.add_assoc, Nat.add_comm 1 j]
        exact this

/-- Claim C15.  `woal_ssid_valid` returns `MTRUE` iff every one of the first
`ssid_len` bytes satisfies `isprint`, `MFALSE` iff one of them does not, and
`MTRUE` for an SSID of length 0. -/
theorem woal_ssid_valid_spec (isprint : Nat → Bool) (pssid : mlan_802_11_ssid) :
    (woal_ssid_valid isprint pssid = BOOLEAN.MTRUE ↔
      ∀ k, k < pssid.ssid_len → isprint (pssid.ssid.getD k 0) = true) ∧
    (woal_ssid_valid isprint pssid = BOOLEAN.MFALSE ↔
      ∃ k, k < pssid.ssid_len ∧ isprint (pssid.ssid.getD k 0) = false) ∧
    (pssid.ssid_len = 0 → woal_ssid_valid isprint pssid = BOOLEAN.MTRUE) := by
  have h := ssid_valid_loop_spec isprint pssid.ssid pssid.ssid_len 0
  simp only [Nat.zero_add] at h
  refine ⟨h, ?_, ?_⟩
  · constructor
    · intro hf
      by_contra hne
      have hall : ∀ k, k < pssid.ssid_len → isprint (pssid.ssid.getD k 0) = true := by
        intro k hk
        by_contra hk2
        exact hne ⟨k, hk, by simpa using hk2⟩
      have := h.2 hall
      unfold woal_ssid_valid at hf
      rw [hf] at this
      cases this
    · rintro ⟨k, hk, hfalse⟩
      cases hv : woal_ssid_valid isprint pssid with
      | MFALSE => rfl
      | MTRUE =>
        have := h.1 hv k hk
        rw [hfalse] at this
        cases this
  · intro h0
    exact h.2 (fun k hk => by omega)

/-- Claim C17.  `woal_set_retry` returns `-EOPNOTSUPP` exactly when `flags`
differs from `IW_RETRY_LIMIT`, and otherwise `-EINVAL` exactly when `value` is
outside [0,14]; in both cases no request is allocated or sent.  A retry count
is sent to the firmware only when `0 <= value <= 14`, so `1 + value <= 15` fits
the 4-bit Total_Tx_Count register. -/
theorem woal_set_retry_spec (IW_RETRY_LIMIT : Nat) (alloc_ok ioctl_ok : Bool)
    (vwrq : iw_param) :
    ((woal_set_retry IW_RETRY_LIMIT alloc_ok ioctl_ok vwrq).1 = Ret.neg Errno.EOPNOTSUPP ↔
      vwrq.flags ≠ IW_RETRY_LIMIT) ∧
    (vwrq.flags = IW_RETRY_LIMIT →
      ((woal_set_retry IW_RETRY_LIMIT alloc_ok ioctl_ok vwrq).1 = Ret.neg Errno.EINVAL ↔
        (vwrq.value < 0 ∨ 14 < vwrq.value))) ∧
    ((woal_set_retry IW_RETRY_LIMIT alloc_ok ioctl_ok vwrq).1 = Ret.neg Errno.EOPNOTSUPP ∨
      (woal_set_retry IW_RETRY_LIMIT alloc_ok ioctl_ok vwrq).1 = Ret.neg Errno.EINVAL →
      (woal_set_retry IW_RETRY_LIMIT alloc_ok ioctl_ok vwrq).2 = []) ∧
    (∀ c, RetryEffect.sent c ∈ (woal_set_retry IW_RETRY_LIMIT alloc_ok ioctl_ok vwrq).2 →
      vwrq.flags = IW_RETRY_LIMIT ∧ c = vwrq.value ∧ 0 ≤ c ∧ c ≤ 14 ∧
      1 + c ≤ 15 ∧ 1 + c < 2 ^ 4) := by
  unfold woal_set_retry TX_RETRY_MIN TX_RETRY_MAX
  by_cases hf : vwrq.flags = IW_RETRY_LIMIT
  · by_cases hv : vwrq.value < 0 ∨ vwrq.value > 14
    · simp [hf, hv]
    · have hv2 : ¬ (vwrq.value < 0 ∨ 14 < vwrq.value) := hv
      cases alloc_ok <;> cases ioctl_ok <;> simp [hf, hv, hv2] <;> omega
  · simp [hf]

theorem strncpy_loop_zeros (count z : Nat) :
    strncpy_loop count (List.replicate z 0) = List.replicate count 0 := by
  induction count with
  | zero => rfl
  | succ n ih =>
    have hh : (List.replicate z 0).headD 0 = 0 := by cases z <;> rfl
    simp only [strncpy_loop, hh, ne_eq, not_true_eq_false, if_false, ih, List.replicate_succ]

theorem strncpy_loop_name (name : List Nat) (hnz : ∀ b ∈ name, b ≠ 0) :
    ∀ count z, name.length ≤ count →
      strncpy_loop count (name ++ List.replicate z 0) =
        name ++ List.replicate (count - name.length) 0 := by
  induction name with
  | nil => intro count z _; simpa using strncpy_loop_zeros count z
  | cons b bs ih =>
    intro count z hlen
    cases count with
    | zero => simp at hlen
    | succ n =>
      have hb : b ≠ 0 := hnz b (List.mem_cons_self _ _)
      have ih2 := ih (fun c hc => hnz c (List.mem_cons_of_mem _ hc)) n z
        (by simpa using hlen)
      simp only [strncpy_loop, List.cons_append, List.headD_cons, ne_eq, hb, not_false_eq_true,
        if_true, List.tail_cons, ih2, List.length_cons, Nat.add_sub_add_right]

theorem takeWhile_name_zero (name rest : List Nat) (hnz : ∀ b ∈ name, b ≠ 0) :
    (name ++ 0 :: rest).takeWhile (fun b => decide (b ≠ 0)) = name := by
  induction name with
  | nil => simp
  | cons b bs ih =>
    have hb : b ≠ 0 := hnz b (List.mem_cons_self _ _)
    simp only [List.cons_append, List.takeWhile_cons, hb, ne_eq, not_false_eq_true,
      decide_True, if_true, List.cons.injEq, true_and]
    exact ih (fun c hc => hnz c (List.mem_cons_of_mem _ hc))

theorem set_nick_buffer (priv : moal_private) (name rest : List Nat)
    (h16 : name.length ≤ 16) :
    (woal_set_nick priv (name ++ rest) name.length).2.nick_name =
      name ++ List.replicate (priv.nick_name.length - name.length) 0 := by
  unfold woal_set_nick
  split_ifs with h
  · exfalso; omega
  · simp only [memcpy, memset, List.take_left', List.drop_length, List.append_nil,
      List.drop_replicate]

theorem get_nick_buffer (priv : moal_private) (name out : List Nat) (z : Nat)
    (hnick : priv.nick_name = name ++ List.replicate z 0)
    (hlen : name.length ≤ 16) (hnz : ∀ b ∈ name, b ≠ 0) (hout : 17 ≤ out.length) :
    (woal_get_nick priv out).2.1 =
      name ++ 0 :: (List.replicate (16 - name.length) 0 ++ out.drop 17) := by
  unfold woal_get_nick strncpy
  simp only [hnick, strncpy_loop_name name hnz 16 z hlen]
  have hA : (name ++ List.replicate (16 - name.length) 0).length = 16 := by
    simp only [List.length_append, List.length_replicate]; omega
  rw [List.set_append_right _ _ (by omega), hA]
  have hd : out.drop 16 = out.getD 16 0 :: out.drop 17 := by
    have h16 : 16 < out.length := by omega
    rw [List.drop_eq_getElem_cons h16, List.getD_eq_getElem _ _ h16]
  rw [hd]
  simp only [Nat.sub_self, List.set_cons_zero, List.append_assoc]
  congr 1
  have : ∀ n (l : List Nat), List.replicate n 0 ++ 0 :: l = 0 :: (List.replicate n 0 ++ l) := by
    intro n l
    induction n with
    | zero => rfl
    | succ m ihm => simp only [List.replicate_succ, List.cons_append, ihm]
  exact this _ _

/-- Claim C16.  Nick name round trip: `woal_set_nick` with a length above 16
returns `-E2BIG` and leaves the private data unchanged; for a name of `n <= 16`
bytes without a NUL byte (buffer `nick_name` of at least 16 bytes, output
buffer of at least 17), `woal_set_nick` returns 0 and the following
`woal_get_nick` returns 0, writes the same `n` bytes followed by a NUL and
reports the length `n + 1`. -/
theorem nick_round_trip :
    (∀ (priv : moal_private) (extra : List Nat) (length : Nat), 16 < length →
      woal_set_nick priv extra length = (Ret.neg Errno.E2BIG, priv)) ∧
    (∀ (priv : moal_private) (name rest out : List Nat),
      name.length ≤ 16 → (∀ b ∈ name, b ≠ 0) → 16 ≤ priv.nick_name.length →
      17 ≤ out.length →
      (woal_set_nick priv (name ++ rest) name.length).1 = Ret.ok ∧
      (woal_get_nick (woal_set_nick priv (name ++ rest) name.length).2 out).1 = Ret.ok ∧
      (woal_get_nick (woal_set_nick priv (name ++ rest) name.length).2 out).2.1.take
        name.length = name ∧
      (woal_get_nick (woal_set_nick priv (name ++ rest) name.length).2 out).2.1[name.length]? =
        some 0 ∧
      (woal_get_nick (woal_set_nick priv (name ++ rest) name.length).2 out).2.2 =
        name.length + 1) := by
  refine ⟨?_, ?_⟩
  · intro priv extra length h
    simp [woal_set_nick, h]
  · intro priv name rest out hlen hnz hN hout
    have hset := set_nick_buffer priv name rest hlen
    have hbuf := get_nick_buffer (woal_set_nick priv (name ++ rest) name.length).2 name out _
      hset hlen hnz hout
    refine ⟨?_, rfl, ?_, ?_, ?_⟩
    · simp [woal_set_nick, show ¬ (16 < name.length) by omega]
    · rw [hbuf, List.take_left']
      rfl
    · rw [hbuf, List.getElem?_append_right (Nat.le_refl _)]
      simp
    · have : (woal_get_nick (woal_set_nick priv (name ++ rest) name.length).2 out).2.2 =
          strlen (woal_get_nick (woal_set_nick priv (name ++ rest) name.length).2 out).2.1 + 1 :=
        rfl
      rw [this, hbuf]
      unfold strlen
      rw [takeWhile_name_zero name _ hnz]

theorem getD_set (l : List iw_freq) (a k : Nat) (x : iw_freq) (ha : a < l.length) :
    (l.set a x).getD k default = if k = a then x else l.getD k default := by
  simp only [List.getD_eq_getElem?_getD, List.getElem?_set]
  by_cases h : a = k
  · subst h; simp [ha]
  · have h2 : ¬ k = a := fun e => h e.symm
    simp [h, h2]

theorem exchange_length (freq : List iw_freq) (i j : Nat) :
    (exchange freq i j).length = freq.length := by
  simp [exchange]

theorem exchange_key (freq : List iw_freq) (i j : Nat) (hi : i < freq.length)
    (hj : j < freq.length) (k : Nat) :
    ((exchange freq i j).getD k default).i =
      if k = j then (freq.getD i default).i
      else if k = i then (freq.getD j default).i else (freq.getD k default).i := by
  unfold exchange
  simp only
  rw [getD_set _ j k _ (by simpa using hj)]
  by_cases hkj : k = j
  · simp [hkj]
  · simp only [hkj, if_false]
    rw [getD_set _ i k _ hi]
    by_cases hki : k = i
    · simp [hki]
    · simp [hki]

theorem sort_inner_spec (i : Nat) : ∀ (n j : Nat) (f : List iw_freq), i < j → j + n ≤ f.length →
    (sort_inner i n j f).length = f.length ∧
    (∀ k, k < i → ((sort_inner i n j f).getD k default).i = (f.getD k default).i) ∧
    (∀ c : Int, (∀ k, i ≤ k → k < j + n → c ≤ (f.getD k default).i) →
      ∀ k, i ≤ k → k < j + n → c ≤ ((sort_inner i n j f).getD k default).i) ∧
    ((∀ k, i < k → k < j → (f.getD i default).i ≤ (f.getD k default).i) →
      ∀ k, i < k → k < j + n →
        ((sort_inner i n j f).getD i default).i ≤ ((sort_inner i n j f).getD k default).i) := by
  intro n
  induction n with
  | zero =>
    intro j f _ _
    exact ⟨rfl, fun _ _ => rfl, fun _ h => h, fun h => h⟩
  | succ n ih =>
    intro j f hij hlen
    simp only [sort_inner]
    by_cases hgt : (f.getD i default).i > (f.getD j default).i
    · simp only [hgt, if_true]
      have hkey := exchange_key f i j (by omega) (by omega)
      obtain ⟨h1, h2, h3, h4⟩ := ih (j + 1) (exchange f i j) (by omega)
        (by rw [exchange_length]; omega)
      refine ⟨by rw [h1, exchange_length], ?_, ?_, ?_⟩
      · intro k hk
        rw [h2 k hk, hkey k]
        have : k ≠ j := by omega
        have : k ≠ i := by omega
        simp [*]
      · intro c hc k hik hk
        apply h3 c _ k hik (by omega)
        intro k2 hik2 hk2
        rw [hkey k2]
        split_ifs
        · exact hc i (by omega) (by omega)
        · exact hc j (by omega) (by omega)
        · exact hc k2 hik2 (by omega)
      · intro hmin k hik hk
        apply h4 _ k hik (by omega)
        intro k2 hik2 hk2
        rw [hkey i, hkey k2]
        have hne : i ≠ j := by omega
        simp only [hne, if_false, if_true]
        by_cases hk2j : k2 = j
        · simp only [hk2j, if_true]; omega
        · have hk2i : k2 ≠ i := by omega
          simp only [hk2j, hk2i, if_false]
          have := hmin k2 hik2 (by omega)
          omega
    · simp only [hgt, if_false]
      obtain ⟨h1, h2, h3, h4⟩ := ih (j + 1) f (by omega) (by omega)
      refine ⟨h1, h2, ?_, ?_⟩
      · intro c hc k hik hk
        exact h3 c (fun k2 a b => hc k2 a (by omega)) k hik (by omega)
      · intro hmin k hik hk
        apply h4 _ k hik (by omega)
        intro k2 hik2 hk2
        by_cases hk2j : k2 = j
        · rw [hk2j]; omega
        · exact hmin k2 hik2 (by omega)

theorem sort_outer_spec (num : Nat) : ∀ (n i : Nat) (f : List iw_freq), i + n = num →
    num ≤ f.length →
    (∀ a b, a < i → a < b → b < num → (f.getD a default).i ≤ (f.getD b default).i) →
    (sort_outer num n i f).length = f.length ∧
    ∀ a b, a < b → b < num →
      ((sort_outer num n i f).getD a default).i ≤ ((sort_outer num n i f).getD b default).i := by
  intro n
  induction n with
  | zero =>
    intro i f hi _ hinv
    exact ⟨rfl, fun a b hab hb => hinv a b (by omega) hab hb⟩
  | succ n ih =>
    intro i f hi hlen hinv
    simp only [sort_outer]
    obtain ⟨h1, h2, h3, h4⟩ := sort_inner_spec i (num - (i + 1)) (i + 1) f (by omega) (by omega)
    have hnum : i + 1 + (num - (i + 1)) = num := by omega
    rw [hnum] at h3 h4
    obtain ⟨g1, g2⟩ := ih (i + 1) (sort_inner i (num - (i + 1)) (i + 1) f) (by omega)
      (by rw [h1]; exact hlen) (by
        intro a b ha hab hb
        by_cases hai : a < i
        · rw [h2 a hai]
          by_cases hbi : b < i
          · rw [h2 b hbi]; exact hinv a b hai hab hb
          · exact h3 _ (fun k hk1 hk2 => hinv a k hai (by omega) hk2) b (by omega) hb
        · have hae : a = i := by omega
          subst hae
          exact h4 (fun k hk1 hk2 => by omega) b hab hb)
    exact ⟨by rw [g1, h1], g2⟩

/-- Claim C14.  `woal_sort_channels` sorts: for an array with at least `num`
entries, after the call `freq[k].i <= freq[k+1].i` for every `k` with
`k + 1 < num` (and `freq[a].i <= freq[b].i` for all `a < b < num`); the array
keeps its length. -/
theorem woal_sort_channels_sorted (freq : List iw_freq) (num : Nat) (h : num ≤ freq.length) :
    (woal_sort_channels freq num).length = freq.length ∧
    (∀ k, k + 1 < num →
      ((woal_sort_channels freq num).getD k default).i ≤
        ((woal_sort_channels freq num).getD (k + 1) default).i) ∧
    (∀ a b, a < b → b < num →
      ((woal_sort_channels freq num).getD a default).i ≤
        ((woal_sort_channels freq num).getD b default).i) := by
  obtain ⟨h1, h2⟩ := sort_outer_spec num num 0 freq (by omega) h
    (fun a b ha _ _ => by omega)
  exact ⟨h1, fun k hk => h2 k (k + 1) (by omega) hk, h2⟩

/-- Claim C13 at a null first pointer. -/
theorem woal_ssid_cmp_spec_witness :
    ((none : Option mlan_802_11_ssid) = none ∨
      some ({ ssid_len := 3, ssid := [97, 98, 99] } : mlan_802_11_ssid) = none) ∧
    woal_ssid_cmp none (some { ssid_len := 3, ssid := [97, 98, 99] }) = -1 :=
  ⟨Or.inl rfl,
   (woal_ssid_cmp_spec none (some { ssid_len := 3, ssid := [97, 98, 99] })).2.1 (Or.inl rfl)⟩

/-- Claim C14 at a list of four channels. -/
theorem woal_sort_channels_sorted_witness :
    (4 ≤ example_channels.length) ∧
    (woal_sort_channels example_channels 4).length = example_channels.length ∧
    (∀ k, k + 1 < 4 →
      ((woal_sort_channels example_channels 4).getD k default).i ≤
        ((woal_sort_channels example_channels 4).getD (k + 1) default).i) ∧
    (woal_sort_channels example_channels 4).map (fun f => f.i) = [1, 1, 6, 11] :=
  ⟨by decide, (woal_sort_channels_sorted example_channels 4 (by decide)).1,
   (woal_sort_channels_sorted example_channels 4 (by decide)).2.1, by decide⟩

/-- Claim C15 at the empty SSID, with the printable ASCII range as `isprint`. -/
theorem woal_ssid_valid_spec_witness :
    (({ ssid_len := 0, ssid := [] } : mlan_802_11_ssid).ssid_len = 0) ∧
    woal_ssid_valid (fun c => decide (32 ≤ c ∧ c < 127)) { ssid_len := 0, ssid := [] } =
      BOOLEAN.MTRUE :=
  ⟨rfl,
   (woal_ssid_valid_spec (fun c => decide (32 ≤ c ∧ c < 127))
     { ssid_len := 0, ssid := [] }).2.2 rfl⟩

/-- Claim C16 at a name of 16 bytes, and at a length of 17. -/
theorem nick_round_trip_witness :
    ((List.replicate 16 65).length ≤ 16) ∧ (∀ b ∈ List.replicate 16 65, b ≠ 0) ∧
    (16 ≤ ({ nick_name := List.replicate 16 7 } : moal_private).nick_name.length) ∧
    (17 ≤ (List.replicate 20 5).length) ∧ (16 < 17) ∧
    (woal_get_nick (woal_set_nick { nick_name := List.replicate 16 7 }
        (List.replicate 16 65 ++ []) (List.replicate 16 65).length).2
      (List.replicate 20 5)).2.2 = (List.replicate 16 65).length + 1 ∧
    woal_set_nick { nick_name := List.replicate 16 7 } [] 17 =
      (Ret.neg Errno.E2BIG, { nick_name := List.replicate 16 7 }) :=
  ⟨by decide, by decide, by decide, by decide, by decide,
   (nick_round_trip.2 { nick_name := List.replicate 16 7 } (List.replicate 16 65) []
     (List.replicate 20 5) (by decide) (by decide) (by decide) (by decide)).2.2.2.2,
   nick_round_trip.1 { nick_name := List.replicate 16 7 } [] 17 (by decide)⟩

/-- Claim C17 at `flags = 0x1000 = IW_RETRY_LIMIT`, `value = 15`. -/
theorem woal_set_retry_spec_witness :
    (({ value := 15, flags := 0x1000 } : iw_param).flags = 0x1000) ∧
    ((woal_set_retry 0x1000 true true { value := 15, flags := 0x1000 }).1 =
        Ret.neg Errno.EINVAL ↔
      (({ value := 15, flags := 0x1000 } : iw_param).value < 0 ∨
        14 < ({ value := 15, flags := 0x1000 } : iw_param).value)) :=
  ⟨rfl, (woal_set_retry_spec 0x1000 true true { value := 15, flags := 0x1000 }).2.1 rfl⟩

theorem bitrate_loop_spec (rates : List Nat) : ∀ (n i : Nat) (b : List Int),
    i + n ≤ b.length →
    i ≤ (bitrate_loop rates n i b).1 ∧ (bitrate_loop rates n i b).1 ≤ i + n ∧
    (bitrate_loop rates n i b).2.length = b.length ∧
    (∀ j, j < i → (bitrate_loop rates n i b).2[j]? = b[j]?) ∧
    (∀ j, i ≤ j → j < (bitrate_loop rates n i b).1 →
      rates.getD j 0 ≠ 0 ∧
      (bitrate_loop rates n i b).2[j]? =
        some (((rates.getD j 0 &&& 0x7f : Nat) : Int) * 500000)) ∧
    ((bitrate_loop rates n i b).1 < i + n →
      rates.getD (bitrate_loop rates n i b).1 0 = 0) := by
  intro n
  induction n with
  | zero =>
    intro i b _
    exact ⟨Nat.le_refl _, Nat.le_refl _, rfl, fun _ _ => rfl, fun j h1 h2 => by
      have h3 : j < i := h2
      omega, fun h => by
      have h3 : i < i + 0 := h
      omega⟩
  | succ n ih =>
    intro i b hlen
    by_cases hr : rates.getD i 0 = 0
    · have e : bitrate_loop rates (n + 1) i b = (i, b) := by
        simp only [bitrate_loop, hr, ne_eq, not_true_eq_false, if_false]
      rw [e]
      exact ⟨Nat.le_refl _, by omega, rfl, fun _ _ => rfl, fun j h1 h2 => by
        have h3 : j < i := h2
        omega, fun _ => hr⟩
    · have e : bitrate_loop rates (n + 1) i b =
          bitrate_loop rates n (i + 1)
            (b.set i (((rates.getD i 0 &&& 0x7f : Nat) : Int) * 500000)) := by
        simp only [bitrate_loop, hr, ne_eq, not_false_eq_true, if_true]
      rw [e]
      obtain ⟨h1, h2, h3, h4, h5, h6⟩ := ih (i + 1)
        (b.set i (((rates.getD i 0 &&& 0x7f : Nat) : Int) * 500000))
        (by rw [List.length_set]; omega)
      refine ⟨by omega, by omega, by rw [h3, List.length_set], ?_, ?_, ?_⟩
      · intro j hj
        rw [h4 j (by omega), List.getElem?_set_ne (by omega)]
      · intro j hij hj
        by_cases hji : j = i
        · subst hji
          refine ⟨hr, ?_⟩
          rw [h4 j (by omega), List.getElem?_set_self (by omega)]
        · exact h5 j (by omega) hj
      · intro hlt
        exact h6 (by omega)

theorem leading_nonzero_count (l : List Nat) : ∀ (limit k : Nat), k ≤ limit →
    (∀ j, j < k → l.getD j 0 ≠ 0) → (k < limit → l.getD k 0 = 0) →
    ((l.take limit).takeWhile (fun r => decide (r ≠ 0))).length = k := by
  induction l with
  | nil =>
    intro limit k _ hnz _
    cases k with
    | zero => simp
    | succ k => exact absurd rfl (hnz 0 (by omega))
  | cons a t ih =>
    intro limit k hk hnz hz
    cases limit with
    | zero =>
      have : k = 0 := by omega
      subst this; simp
    | succ m =>
      cases k with
      | zero =>
        have ha : a = 0 := by simpa using hz (by omega)
        simp [ha]
      | succ k =>
        have ha : a ≠ 0 := by simpa using hnz 0 (by omega)
        have := ih m k (by omega)
          (fun j hj => by simpa using hnz (j + 1) (by omega))
          (fun hlt => by simpa using hz (by omega))
        simp only [List.take_succ_cons, List.takeWhile_cons, ha, ne_eq, not_false_eq_true,
          decide_True, if_true, List.length_cons]
        simp only [ne_eq] at this
        rw [this]

/-- Claim C21.  `woal_get_range` bit rates (`num_of_rates` a byte,
`IW_MAX_BITRATES` below 256): the reported `num_bitrates` is the number of
leading non-zero entries among the first `min(num_of_rates, IW_MAX_BITRATES)`
supported-rate bytes, so it is at most that minimum and at most
`IW_MAX_BITRATES`; for every `j` below it `rates[j]` is non-zero and
`bitrate[j] = (rates[j] & 0x7f) * 500000`; when it is below the minimum the
byte at that index is zero. -/
theorem woal_get_range_bitrates (IW_MAX_BITRATES : Nat) (rates : moal_802_11_rates)
    (hmax : IW_MAX_BITRATES < 256) (hnum : rates.num_of_rates < 256) :
    (woal_get_range IW_MAX_BITRATES rates).num_bitrates =
      ((rates.rates.take (min rates.num_of_rates IW_MAX_BITRATES)).takeWhile
        (fun r => decide (r ≠ 0))).length ∧
    (woal_get_range IW_MAX_BITRATES rates).num_bitrates ≤
      min rates.num_of_rates IW_MAX_BITRATES ∧
    (woal_get_range IW_MAX_BITRATES rates).num_bitrates ≤ IW_MAX_BITRATES ∧
    (∀ j, j < (woal_get_range IW_MAX_BITRATES rates).num_bitrates →
      rates.rates.getD j 0 ≠ 0 ∧
      (woal_get_range IW_MAX_BITRATES rates).bitrate[j]? =
        some (((rates.rates.getD j 0 &&& 0x7f : Nat) : Int) * 500000)) ∧
    ((woal_get_range IW_MAX_BITRATES rates).num_bitrates <
        min rates.num_of_rates IW_MAX_BITRATES →
      rates.rates.getD (woal_get_range IW_MAX_BITRATES rates).num_bitrates 0 = 0) ∧
    (woal_get_range IW_MAX_BITRATES rates).bitrate.length = IW_MAX_BITRATES := by
  have hmin : MIN (rates.num_of_rates % 256) IW_MAX_BITRATES =
      min rates.num_of_rates IW_MAX_BITRATES := by
    unfold MIN
    rw [Nat.mod_eq_of_lt hnum]
    split_ifs <;> omega
  have hle : min rates.num_of_rates IW_MAX_BITRATES ≤ IW_MAX_BITRATES := Nat.min_le_right _ _
  obtain ⟨_, h2, h3, _, h5, h6⟩ := bitrate_loop_spec rates.rates
    (min rates.num_of_rates IW_MAX_BITRATES) 0 (List.replicate IW_MAX_BITRATES 0)
    (by simp only [List.length_replicate]; omega)
  simp only [Nat.zero_add] at h2 h6
  have hk : (bitrate_loop rates.rates (min rates.num_of_rates IW_MAX_BITRATES) 0
      (List.replicate IW_MAX_BITRATES 0)).1 % 256 =
      (bitrate_loop rates.rates (min rates.num_of_rates IW_MAX_BITRATES) 0
        (List.replicate IW_MAX_BITRATES 0)).1 := Nat.mod_eq_of_lt (by omega)
  simp only [woal_get_range, hmin, hk]
  refine ⟨?_, h2, by omega, fun j hj => h5 j (Nat.zero_le _) hj, h6, ?_⟩
  · exact (leading_nonzero_count rates.rates _ _ h2
      (fun j hj => (h5 j (Nat.zero_le _) hj).1) h6).symm
  · rw [h3, List.length_replicate]

/-- Claim C21 at the twelve 802.11b/g rates, with `IW_MAX_BITRATES = 32`. -/
theorem woal_get_range_bitrates_witness :
    (32 < 256) ∧ (example_rates.num_of_rates < 256) ∧
    (woal_get_range 32 example_rates).num_bitrates = 12 ∧
    (woal_get_range 32 example_rates).bitrate.take 12 =
      [1000000, 2000000, 5500000, 11000000, 6000000, 9000000, 12000000, 18000000,
       24000000, 36000000, 48000000, 54000000] ∧
    (woal_get_range 32 example_rates).num_bitrates ≤ 32 ∧
    (∀ j, j < (woal_get_range 32 example_rates).num_bitrates →
      example_rates.rates.getD j 0 ≠ 0 ∧
      (woal_get_range 32 example_rates).bitrate[j]? =
        some (((example_rates.rates.getD j 0 &&& 0x7f : Nat) : Int) * 500000)) :=
  ⟨by decide, by decide, by decide, by decide,
   (woal_get_range_bitrates 32 example_rates (by decide) (by decide)).2.2.1,
   (woal_get_range_bitrates 32 example_rates (by decide) (by decide)).2.2.2.1⟩

end MoalWext

namespace Xpad

theorem find_xpad_device_mapping (l : List xpad_device_entry)
    (hl : ∀ e ∈ l, e.dpad_mapping = MAP_DPAD_TO_BUTTONS ∨ e.dpad_mapping = MAP_DPAD_TO_AXES ∨
      e.dpad_mapping = MAP_DPAD_UNKNOWN) (vendor product : Nat) :
    (find_xpad_device l vendor product).dpad_mapping = MAP_DPAD_TO_BUTTONS ∨
    (find_xpad_device l vendor product).dpad_mapping = MAP_DPAD_TO_AXES ∨
    (find_xpad_device l vendor product).dpad_mapping = MAP_DPAD_UNKNOWN := by
  induction l with
  | nil => right; right; rfl
  | cons e rest ih =>
    simp only [find_xpad_device]
    split_ifs
    · exact hl e (List.mem_cons_self _ _)
    · exact hl e (List.mem_cons_self _ _)
    · exact ih (fun x hx => hl x (List.mem_cons_of_mem _ hx))

theorem xpad_device_mappings : ∀ e ∈ xpad_device,
    e.dpad_mapping = MAP_DPAD_TO_BUTTONS ∨ e.dpad_mapping = MAP_DPAD_TO_AXES ∨
      e.dpad_mapping = MAP_DPAD_UNKNOWN := by
  decide

theorem xpad_probe_intfdata (dpad_to_buttons : Int) (st : xpad_driver)
    (intf : usb_interface) (env : ProbeEnv) :
    (xpad_probe dpad_to_buttons st intf env).2.intfdata = st.intfdata ∨
    ∃ x : usb_xpad,
      x.dpad_mapping = (probe_fill dpad_to_buttons intf
        (find_xpad_device xpad_device intf.idVendor intf.idProduct)).dpad_mapping ∧
      (xpad_probe dpad_to_buttons st intf env).2.intfdata =
        fun i => if i = intf.intf then some x else st.intfdata i := by
  unfold xpad_probe
  generalize probe_fill dpad_to_buttons intf
    (find_xpad_device xpad_device intf.idVendor intf.idProduct) = p
  by_cases h1 : intf.bInterfaceProtocol = 130
  · left; simp only [h1, if_true]
  by_cases h2 : st.s_fast_device_count ≥ 8
  · left; simp only [h1, h2, if_true, if_false]
  rcases env with ⟨a, b, c, d, e, f, g, l⟩
  simp only [h1, h2, if_false]
  cases a
  · left; rfl
  cases b
  · left; rfl
  cases c
  · left; rfl
  cases d with
  | some e1 => left; rfl
  | none =>
    cases e with
    | some e2 => left; rfl
    | none =>
      by_cases h6 : p.xtype = XTYPE_XBOX360W
      · cases f with
        | some e3 => right; exact ⟨p, rfl, by simp [h6, usb_set_intfdata]⟩
        | none => right; exact ⟨p, rfl, by simp [h6, usb_set_intfdata]⟩
      · cases g with
        | some e4 => left; simp [h6]
        | none =>
          cases l with
          | some e5 => left; simp [h6]
          | none =>
            right
            exact ⟨{ p with dev_registered := true }, rfl, by simp [h6, usb_set_intfdata]⟩

theorem probe_stores_filled_pad (dpad_to_buttons : Int) (st : xpad_driver)
    (intf : usb_interface) (env : ProbeEnv) (xpad : usb_xpad)
    (hnew : st.intfdata intf.intf = none)
    (h : (xpad_probe dpad_to_buttons st intf env).2.intfdata intf.intf = some xpad) :
    xpad.dpad_mapping = (probe_fill dpad_to_buttons intf
      (find_xpad_device xpad_device intf.idVendor intf.idProduct)).dpad_mapping := by
  rcases xpad_probe_intfdata dpad_to_buttons st intf env with h0 | ⟨x, hx, h0⟩
  · rw [h0, hnew] at h; cases h
  · rw [h0] at h
    simp only [if_true, Option.some.injEq] at h
    rw [← h, hx]

theorem xpad_device_listed_rows : ∀ e ∈ xpad_device, e.idVendor ≠ 0 →
    (e.dpad_mapping = MAP_DPAD_TO_BUTTONS ∨ e.dpad_mapping = MAP_DPAD_TO_AXES) ∧
    (find_xpad_device xpad_device e.idVendor e.idProduct).dpad_mapping = e.dpad_mapping := by
  decide

theorem xpad_device_terminator : ∀ e ∈ xpad_device, e.idVendor = 0 →
    e.dpad_mapping = MAP_DPAD_UNKNOWN := by
  decide

theorem find_xpad_device_unlisted (l : List xpad_device_entry) (vendor product : Nat)
    (hno : ∀ e ∈ l, e.idVendor ≠ 0 → ¬ (vendor = e.idVendor ∧ product = e.idProduct)) :
    (find_xpad_device l vendor product).dpad_mapping = MAP_DPAD_UNKNOWN ∨
    (find_xpad_device l vendor product ∈ l ∧
      (find_xpad_device l vendor product).idVendor = 0) := by
  induction l with
  | nil => left; rfl
  | cons e rest ih =>
    simp only [find_xpad_device]
    by_cases h0 : e.idVendor = 0
    · rw [if_pos h0]
      exact Or.inr ⟨List.mem_cons_self _ _, h0⟩
    · have hm := hno e (List.mem_cons_self _ _) h0
      rw [if_neg h0, if_neg hm]
      rcases ih (fun x hx => hno x (List.mem_cons_of_mem _ hx)) with h | ⟨h1, h2⟩
      · exact Or.inl h
      · exact Or.inr ⟨List.mem_cons_of_mem _ h1, h2⟩

/-- Claim C18.  For the pad `xpad_probe` stores for an interface:
* when the device is listed in `xpad_device` (some row with a non-zero vendor
  has its vendor and product), that row says `MAP_DPAD_TO_BUTTONS` or
  `MAP_DPAD_TO_AXES` and the pad has the row's mapping, whatever
  `dpad_to_buttons` is;
* when no such row has its vendor and product, the lookup ends at a row that
  says `MAP_DPAD_UNKNOWN` and the pad has `MAP_DPAD_TO_BUTTONS` if
  `dpad_to_buttons` is non-zero and `MAP_DPAD_TO_AXES` if it is zero;
* in terms of the row the lookup loop stops at: `MAP_DPAD_UNKNOWN` there gives
  the parameter's mapping, `MAP_DPAD_TO_BUTTONS` or `MAP_DPAD_TO_AXES` there is
  kept;
* the pad's mapping is never `MAP_DPAD_UNKNOWN`. -/
theorem dpad_mapping_after_probe (dpad_to_buttons : Int) (st : xpad_driver)
    (intf : usb_interface) (env : ProbeEnv) (xpad : usb_xpad)
    (hnew : st.intfdata intf.intf = none)
    (h : (xpad_probe dpad_to_buttons st intf env).2.intfdata intf.intf = some xpad) :
    (∀ e ∈ xpad_device, e.idVendor ≠ 0 →
      intf.idVendor = e.idVendor → intf.idProduct = e.idProduct →
      (e.dpad_mapping = MAP_DPAD_TO_BUTTONS ∨ e.dpad_mapping = MAP_DPAD_TO_AXES) ∧
      xpad.dpad_mapping = e.dpad_mapping) ∧
    ((∀ e ∈ xpad_device, e.idVendor ≠ 0 →
        ¬ (intf.idVendor = e.idVendor ∧ intf.idProduct = e.idProduct)) →
      (find_xpad_device xpad_device intf.idVendor intf.idProduct).dpad_mapping =
        MAP_DPAD_UNKNOWN ∧
      (dpad_to_buttons ≠ 0 → xpad.dpad_mapping = MAP_DPAD_TO_BUTTONS) ∧
      (dpad_to_buttons = 0 → xpad.dpad_mapping = MAP_DPAD_TO_AXES)) ∧
    ((find_xpad_device xpad_device intf.idVendor intf.idProduct).dpad_mapping =
        MAP_DPAD_UNKNOWN →
      (dpad_to_buttons ≠ 0 → xpad.dpad_mapping = MAP_DPAD_TO_BUTTONS) ∧
      (dpad_to_buttons = 0 → xpad.dpad_mapping = MAP_DPAD_TO_AXES)) ∧
    ((find_xpad_device xpad_device intf.idVendor intf.idProduct).dpad_mapping =
        MAP_DPAD_TO_BUTTONS ∨
      (find_xpad_device xpad_device intf.idVendor intf.idProduct).dpad_mapping =
        MAP_DPAD_TO_AXES →
      xpad.dpad_mapping =
        (find_xpad_device xpad_device intf.idVendor intf.idProduct).dpad_mapping) ∧
    xpad.dpad_mapping ≠ MAP_DPAD_UNKNOWN := by
  have hx := probe_stores_filled_pad dpad_to_buttons st intf env xpad hnew h
  have hm := find_xpad_device_mapping xpad_device xpad_device_mappings intf.idVendor
    intf.idProduct
  have hunknown : (find_xpad_device xpad_device intf.idVendor intf.idProduct).dpad_mapping =
        MAP_DPAD_UNKNOWN →
      (dpad_to_buttons ≠ 0 → xpad.dpad_mapping = MAP_DPAD_TO_BUTTONS) ∧
      (dpad_to_buttons = 0 → xpad.dpad_mapping = MAP_DPAD_TO_AXES) := by
    intro hu
    rw [hx]
    simp only [probe_fill, hu, if_true, MAP_DPAD_TO_BUTTONS, MAP_DPAD_TO_AXES]
    constructor
    · intro hd; simp [hd]
    · intro hd; simp [hd]
  have hkept : (find_xpad_device xpad_device intf.idVendor intf.idProduct).dpad_mapping =
        MAP_DPAD_TO_BUTTONS ∨
      (find_xpad_device xpad_device intf.idVendor intf.idProduct).dpad_mapping =
        MAP_DPAD_TO_AXES →
      xpad.dpad_mapping =
        (find_xpad_device xpad_device intf.idVendor intf.idProduct).dpad_mapping := by
    intro hba
    rw [hx]
    simp only [MAP_DPAD_UNKNOWN, MAP_DPAD_TO_BUTTONS, MAP_DPAD_TO_AXES] at hba
    have hne : ¬ (find_xpad_device xpad_device intf.idVendor intf.idProduct).dpad_mapping =
        MAP_DPAD_UNKNOWN := by
      simp only [MAP_DPAD_UNKNOWN]; omega
    simp only [probe_fill, hne, if_false]
  refine ⟨?_, ?_, hunknown, hkept, ?_⟩
  · intro e he hv hiv hip
    obtain ⟨hrow, hfind⟩ := xpad_device_listed_rows e he hv
    refine ⟨hrow, ?_⟩
    rw [hiv, hip] at hkept
    rw [hfind] at hkept
    exact hkept hrow
  · intro hno
    have hu : (find_xpad_device xpad_device intf.idVendor intf.idProduct).dpad_mapping =
        MAP_DPAD_UNKNOWN := by
      rcases find_xpad_device_unlisted xpad_device intf.idVendor intf.idProduct hno with
        h1 | ⟨h1, h2⟩
      · exact h1
      · exact xpad_device_terminator _ h1 h2
    exact ⟨hu, hunknown hu⟩
  · rcases hm with h1 | h1 | h1
    · rw [hkept (Or.inl h1), h1]; decide
    · rw [hkept (Or.inr h1), h1]; decide
    · by_cases hd : dpad_to_buttons = 0
      · rw [(hunknown h1).2 hd]; decide
      · rw [(hunknown h1).1 hd]; decide

theorem xpad_probe_at_limit (dpad_to_buttons : Int) (st : xpad_driver) (intf : usb_interface)
    (env : ProbeEnv) (h : st.s_fast_device_count ≥ 8) :
    xpad_probe dpad_to_buttons st intf env = (Ret.ok, st) := by
  unfold xpad_probe
  by_cases h1 : intf.bInterfaceProtocol = 130
  · simp only [h1, if_true]
  · simp only [h1, h, if_true, if_false]

theorem xpad_probe_count (dpad_to_buttons : Int) (st : xpad_driver) (intf : usb_interface)
    (env : ProbeEnv) :
    ((xpad_probe dpad_to_buttons st intf env).2.s_fast_device_count =
        st.s_fast_device_count + 1 ∧
      (xpad_probe dpad_to_buttons st intf env).1 = Ret.ok ∧ st.s_fast_device_count < 8 ∧
      intf.bInterfaceProtocol ≠ 130) ∨
    (xpad_probe dpad_to_buttons st intf env).2.s_fast_device_count =
      st.s_fast_device_count := by
  unfold xpad_probe
  generalize probe_fill dpad_to_buttons intf
    (find_xpad_device xpad_device intf.idVendor intf.idProduct) = p
  by_cases h1 : intf.bInterfaceProtocol = 130
  · right; simp only [h1, if_true]
  by_cases h2 : st.s_fast_device_count ≥ 8
  · right; simp only [h1, h2, if_true, if_false]
  have h2b : st.s_fast_device_count < 8 := by omega
  rcases env with ⟨a, b, c, d, e, f, g, l⟩
  simp only [h1, h2, if_false]
  cases a
  · right; rfl
  cases b
  · right; rfl
  cases c
  · right; rfl
  cases d with
  | some e1 => right; rfl
  | none =>
    cases e with
    | some e2 => right; rfl
    | none =>
      by_cases h6 : p.xtype = XTYPE_XBOX360W
      · cases f with
        | some e3 => right; simp [h6, usb_set_intfdata]
        | none => left; simp [h6, h2b, h1]
      · cases g with
        | some e4 => right; simp [h6]
        | none =>
          cases l with
          | some e5 => right; simp [h6]
          | none => left; simp [h6, h2b, h1]

theorem xpad_disconnect_count (st : xpad_driver) (intf : Nat) :
    (xpad_disconnect st intf).intfdata intf = none ∧
    (st.intfdata intf ≠ none →
      (xpad_disconnect st intf).s_fast_device_count = st.s_fast_device_count - 1) ∧
    (st.intfdata intf = none →
      (xpad_disconnect st intf).s_fast_device_count = st.s_fast_device_count) := by
  unfold xpad_disconnect
  cases h : st.intfdata intf with
  | none => simp [usb_set_intfdata]
  | some x => simp [usb_set_intfdata]

theorem device_count_le_eight (dpad_to_buttons : Int) (calls : List usb_event) :
    ∀ s s2 : usb_core, s.driver.s_fast_device_count ≤ 8 →
      usb_run dpad_to_buttons s calls = some s2 → s2.driver.s_fast_device_count ≤ 8 := by
  induction calls with
  | nil =>
    intro s s2 h hr
    simp only [usb_run, Option.some.injEq] at hr
    rw [← hr]; exact h
  | cons ev rest ih =>
    intro s s2 h hr
    simp only [usb_run] at hr
    cases hstep : usb_step dpad_to_buttons s ev with
    | none => rw [hstep] at hr; cases hr
    | some s1 =>
      rw [hstep] at hr
      refine ih s1 s2 ?_ hr
      cases ev with
      | probe intf env =>
        simp only [usb_step] at hstep
        split_ifs at hstep
        simp only [Option.some.injEq] at hstep
        rw [← hstep]
        rcases xpad_probe_count dpad_to_buttons s.driver intf env with ⟨hc, _, hlt, _⟩ | hc
        · simp only [hc]; omega
        · simp only [hc]; exact h
      | disconnect intf =>
        simp only [usb_step] at hstep
        split_ifs at hstep
        simp only [Option.some.injEq] at hstep
        rw [← hstep]
        obtain ⟨_, hsome, hnone⟩ := xpad_disconnect_count s.driver intf
        by_cases hd : s.driver.intfdata intf = none
        · simp only [hnone hd]; exact h
        · simp only [hsome hd]; omega

theorem status_packet_with_room (ptr : Nat) (xpad : usb_xpad) (q : attach_queue)
    (data : List Nat) (hroom : q.s_xpad_count < q.s_xpad_process.length) :
    ∃ xpad2 q2 effects,
      xpad360w_process_packet ptr xpad q data = some (xpad2, q2, effects) ∧
      (data.getD 0 0 &&& 0x08 ≠ 0 →
        (∀ d, packet_effect.xpad360_process_packet d ∉ effects) ∧
        (data.getD 1 0 &&& 0x80 ≠ 0 → xpad2.pad_present = 1) ∧
        (data.getD 1 0 &&& 0x80 = 0 → xpad2.pad_present = 0) ∧
        (xpad2.pad_present ≠ xpad.pad_present →
          q2.s_xpad_count = q.s_xpad_count + 1 ∧
          q2.s_xpad_process = q.s_xpad_process.set q.s_xpad_count (some ptr)) ∧
        (xpad2.pad_present = xpad.pad_present → q2 = q)) ∧
      (data.getD 0 0 &&& 0x08 = 0 →
        xpad2 = xpad ∧ q2 = q ∧
        (data.getD 1 0 &&& 0x1 ≠ 0 →
          effects = [packet_effect.xpad360_process_packet (data.drop 4)]) ∧
        (data.getD 1 0 &&& 0x1 = 0 → effects = [])) := by
  unfold xpad360w_process_packet
  generalize data.getD 0 0 &&& 0x08 = c0
  generalize data.getD 1 0 &&& 0x80 = c8
  generalize data.getD 1 0 &&& 0x1 = c1
  by_cases h0 : c0 = 0
  · by_cases h1 : c1 = 0
    · exact ⟨xpad, q, [], by simp [h0, h1], fun h => absurd h0 h, fun _ => by simp [h1]⟩
    · exact ⟨xpad, q, [packet_effect.xpad360_process_packet (data.drop 4)], by simp [h0, h1],
        fun h => absurd h0 h, fun _ => by simp [h1]⟩
  · by_cases h8 : c8 = 0
    · by_cases hp : xpad.pad_present = 0
      · refine ⟨{ xpad with pad_present := xpad.pad_present }, q, [], by simp [h0, h8, hp], ?_,
          fun h => absurd h h0⟩
        intro _
        exact ⟨by simp, fun h => absurd h8 h, fun _ => hp, fun h => absurd rfl h, fun _ => rfl⟩
      · refine ⟨{ xpad with pad_present := 0 },
          { s_xpad_process := q.s_xpad_process.set q.s_xpad_count (some ptr),
            s_xpad_count := q.s_xpad_count + 1 }, [packet_effect.schedule_work],
          by simp [h0, h8, hp, hroom], ?_, fun h => absurd h h0⟩
        intro _
        exact ⟨by simp, fun h => absurd h8 h, fun _ => rfl, fun _ => ⟨rfl, rfl⟩,
          fun h => absurd h.symm hp⟩
    · by_cases hp : xpad.pad_present = 1
      · refine ⟨{ xpad with pad_present := xpad.pad_present }, q, [], by simp [h0, h8, hp], ?_,
          fun h => absurd h h0⟩
        intro _
        exact ⟨by simp, fun _ => hp, fun h => absurd h h8, fun h => absurd rfl h, fun _ => rfl⟩
      · refine ⟨{ xpad with pad_present := 1 },
          { s_xpad_process := q.s_xpad_process.set q.s_xpad_count (some ptr),
            s_xpad_count := q.s_xpad_count + 1 }, [packet_effect.schedule_work],
          by simp [h0, h8, hp, hroom], ?_, fun h => absurd h h0⟩
        intro _
        exact ⟨by simp, fun _ => rfl, fun h => absurd h h8, fun _ => ⟨rfl, rfl⟩,
          fun h => absurd h.symm hp⟩

/-- Claim C19 at the failing calls: a receiver interface is probed and
`usb_submit_urb` fails after `usb_set_intfdata`, so its interface data stays
set; eight pads are probed; the interface is probed again and accepted at the
limit of 8; after the nine disconnects `s_fast_device_count` is -1. -/
theorem device_count_goes_negative :
    (usb_run 0 usb_core_init stale_intfdata_calls).map
      (fun s => s.driver.s_fast_device_count) = some (-1) := by
  decide

/-- Claim C20 at the failing packets: sixteen status packets with alternating
presence fill the 16 entries of `s_xpad_process` before the attach work runs;
the seventeenth changes `pad_present` again and its store
`s_xpad_process[s_xpad_count++]` falls outside the array. -/
theorem attach_queue_overflows :
    (process_packets 1 receiver_pad attach_queue_init (alternating_status 16)).map
      (fun r => r.2.s_xpad_count) = some 16 ∧
    process_packets 1 receiver_pad attach_queue_init (alternating_status 17) = none := by
  decide


/-- Claim C18 at the listed dance pad 0c12:8809 probed with `dpad_to_buttons = 0`
(its row's `MAP_DPAD_TO_BUTTONS` is kept) and at an unlisted pad (1234:5678)
probed with `dpad_to_buttons = 1` (it gets `MAP_DPAD_TO_BUTTONS` from the
parameter). -/
theorem dpad_mapping_after_probe_witness :
    (usb_core_init.driver.intfdata dance_pad_interface.intf = none) ∧
    ((xpad_probe 0 usb_core_init.driver dance_pad_interface env_ok).2.intfdata
        dance_pad_interface.intf = some dance_pad) ∧
    dance_pad_row ∈ xpad_device ∧
    dance_pad.dpad_mapping = dance_pad_row.dpad_mapping ∧
    (usb_core_init.driver.intfdata generic_interface.intf = none) ∧
    ((xpad_probe 1 usb_core_init.driver generic_interface env_ok).2.intfdata
        generic_interface.intf = some generic_pad) ∧
    (∀ e ∈ xpad_device, e.idVendor ≠ 0 →
      ¬ (generic_interface.idVendor = e.idVendor ∧
          generic_interface.idProduct = e.idProduct)) ∧
    generic_pad.dpad_mapping = MAP_DPAD_TO_BUTTONS ∧
    generic_pad.dpad_mapping ≠ MAP_DPAD_UNKNOWN :=
  ⟨rfl, by decide, by decide,
   ((dpad_mapping_after_probe 0 usb_core_init.driver dance_pad_interface env_ok dance_pad rfl
     (by decide)).1 dance_pad_row (by decide) (by decide) rfl rfl).2,
   rfl, by decide, by decide,
   (((dpad_mapping_after_probe 1 usb_core_init.driver generic_interface env_ok generic_pad rfl
     (by decide)).2.1 (by decide)).2.1 (by decide)),
   (dpad_mapping_after_probe 1 usb_core_init.driver generic_interface env_ok generic_pad rfl
     (by decide)).2.2.2.2⟩

end Xpad
